import Mathlib

/-!
Verification development for the craft-agents War Room pipeline orchestrator.

The definitions below are a shallow embedding of the code in
src/packages/shared/src/lab/pipeline-runner.ts, src/packages/shared/src/lab/types.ts
and src/packages/shared/src/lab/storage.ts.

Modelling conventions:
* JS numbers that hold token counts, costs and timestamps are modelled as Nat
  (costs in integral micro-units; no claim depends on float rounding).
* randomUUID is modelled by a deterministic fresh-id counter threaded through
  the run state; Date.now is modelled by a fixed parameter `now` (no claim
  depends on distinct timestamps inside one run).
* The cooperative single-threaded event loop is modelled by sequentialising
  each parallel phase into two passes: pass 1 runs the synchronous prefix of
  every run closure (create run, push, save, emit, checkAborted) in persona
  order, exactly as the JS `personas.map(async ...)` does before the first
  await; pass 2 settles the results in persona order.  Because the prefixes
  run synchronously, every checkAborted call of one phase observes the same
  value of the abort signal; the abort schedule is therefore a function of a
  per-phase instant index (0 = think checks, 1+2i = build check of iteration
  i, 2+2i = review checks of iteration i).
* The external single-agent execution engine (HeadlessRunner, absent from
  src/ and excluded by the spec) is an oracle: an environment assigns a
  HeadlessResult to every run slot.
* Prompt-builder functions only feed the oracle and are elided; the streaming
  progress log inside runAgentWithStreaming does not affect the value it
  returns and is modelled separately (trimLog, runAgentStream).
-/

namespace Craft

/-- PipelineStatus from types.ts. -/
inductive PipelineStatus
  | pending | thinking | synthesizing | building | reviewing | iterating
  | completed | failed | cancelled
deriving DecidableEq, Repr

/-- PhaseType from types.ts. -/
inductive PhaseType
  | think | synthesize | build | review | iterate
deriving DecidableEq, Repr

/-- PhaseStatus from types.ts. -/
inductive PhaseStatus
  | pending | running | completed | failed | skipped
deriving DecidableEq, Repr

/-- AgentRunStatus from types.ts. -/
inductive AgentRunStatus
  | pending | running | completed | failed
deriving DecidableEq, Repr

/-- LabAgentRun.tokenUsage from types.ts (cost in micro-units). -/
structure TokenUsage where
  inputTokens : Nat
  outputTokens : Nat
  totalTokens : Nat
  costUsd : Nat
deriving DecidableEq, Repr

/-- LabAgentRun from types.ts (outputFile elided: never written by the runner). -/
structure LabAgentRun where
  id : Nat
  personaId : String
  personaName : String
  personaIcon : String
  status : AgentRunStatus
  output : Option String := none
  tokenUsage : Option TokenUsage := none
  startedAt : Option Nat := none
  completedAt : Option Nat := none
  error : Option String := none
deriving DecidableEq, Repr

/-- LabPhase from types.ts. -/
structure LabPhase where
  id : Nat
  type : PhaseType
  label : String
  status : PhaseStatus
  agents : List LabAgentRun
  startedAt : Option Nat := none
  completedAt : Option Nat := none
deriving DecidableEq, Repr

/-- LabPipeline from types.ts (gitBranch elided: never touched by the runner). -/
structure LabPipeline where
  id : String
  projectId : String
  prompt : String
  status : PipelineStatus
  phases : List LabPhase
  iteration : Nat
  maxIterations : Nat
  totalTokens : Option Nat := none
  totalCostUsd : Option Nat := none
  createdAt : Nat
  updatedAt : Nat
  completedAt : Option Nat := none
deriving DecidableEq, Repr

/-- LabPersona from types.ts, restricted to the fields the runner reads for
run bookkeeping (mindset / knowledge / evaluationCriteria / role / model only
feed the elided prompt builders and the elided runner construction). -/
structure LabPersona where
  id : String
  name : String
  icon : String
deriving DecidableEq, Repr

/-- PipelineEvent from types.ts, one constructor per `type` tag.
pipeline_cancelled shares the shape of pipeline_error, as in the source. -/
inductive PipelineEvent
  | pipelineStarted (pipelineId : String)
  | phaseStarted (pipelineId : String) (phaseId : Nat) (phaseType : PhaseType) (phaseIndex : Nat)
  | agentStarted (pipelineId : String) (phaseIndex : Nat) (agentRunId : Nat)
      (personaId personaName personaIcon : String)
  | agentProgress (pipelineId : String) (phaseIndex : Nat) (agentRunId : Nat)
      (personaId : String) (text : String)
  | agentCompleted (pipelineId : String) (phaseIndex : Nat) (agentRunId : Nat)
      (personaId : String) (output : String) (tokenUsage : Option TokenUsage)
  | agentFailed (pipelineId : String) (phaseIndex : Nat) (agentRunId : Nat)
      (personaId : String) (error : String)
  | phaseCompleted (pipelineId : String) (phaseIndex : Nat) (phaseType : PhaseType)
  | pipelineCompleted (pipelineId : String) (status : PipelineStatus)
      (totalCostUsd totalTokens : Nat)
  | pipelineError (pipelineId : String) (error : String)
  | pipelineCancelled (pipelineId : String) (error : String)
deriving DecidableEq, Repr

/-- HeadlessResult.usage (headless/types.ts is not under src/; the shape is
fixed by its uses in pipeline-runner.ts: inputTokens, outputTokens, costUsd). -/
structure HeadlessUsage where
  inputTokens : Nat
  outputTokens : Nat
  costUsd : Nat
deriving DecidableEq, Repr

/-- HeadlessResult.error as used in pipeline-runner.ts. -/
structure HeadlessError where
  code : String
  message : String
deriving DecidableEq, Repr

/-- HeadlessResult as used in pipeline-runner.ts: success flag, optional
response text, optional usage, optional error. -/
structure HeadlessResult where
  success : Bool
  response : Option String := none
  usage : Option HeadlessUsage := none
  error : Option HeadlessError := none
deriving DecidableEq, Repr

/-- JS truthiness of an optional string: undefined and the empty string are
falsy.  Used to mirror `result.success && result.response` and
`r.status === completed && r.output`. -/
def strTruthy : Option String → Bool
  | none => false
  | some s => s != ""

/-- Mirrors the source test `result.success && result.response`. -/
def resultOk (r : HeadlessResult) : Bool :=
  r.success && strTruthy r.response

/-- Mirrors `result.error?.message || fallback` (JS: an absent error object,
an absent message or an empty message all fall back). -/
def errMsgOr (r : HeadlessResult) (fallback : String) : String :=
  match r.error with
  | some e => if e.message == "" then fallback else e.message
  | none => fallback

/-- PHASE_LABELS from pipeline-runner.ts (total, so the fallback of the
source record lookup never fires). -/
def phaseLabel : PhaseType → String
  | .think => "Think — Parallel Briefs"
  | .build => "Build — Implementation"
  | .review => "Review — Quality Check"
  | .iterate => "Iterate — Fix Issues"
  | .synthesize => "Synthesize — Plan"

/-! ## String helpers: JS toUpperCase / includes / indexOf over char lists -/

/-- JS String.prototype.toUpperCase, restricted to the ASCII range that the
MAJOR_ISSUES convention uses. -/
def upperChars (l : List Char) : List Char := l.map Char.toUpper

/-- JS String.prototype.includes: the pattern occurs as a contiguous
substring. -/
def containsSub (pat : List Char) : List Char → Bool
  | [] => pat.isEmpty
  | c :: rest => pat.isPrefixOf (c :: rest) || containsSub pat rest

/-- First index (counting from the given offset into the remaining list) at
which the pattern occurs; JS indexOf returns -1 when absent, modelled as
none. -/
def findSubAux (pat : List Char) : List Char → Nat → Option Nat
  | [], i => if pat.isEmpty then some i else none
  | c :: rest, i => if pat.isPrefixOf (c :: rest) then some i else findSubAux pat rest (i + 1)

/-- JS s.indexOf(pat, start): first occurrence index at or after start. -/
def indexOfFrom (pat : List Char) (l : List Char) (start : Nat) : Option Nat :=
  findSubAux pat (l.drop start) start

/-- The uppercased output of a run contains the blocking marker; mirrors
`r.output?.toUpperCase().includes(MAJOR_ISSUES)` with the undefined case
falsy. -/
def outputHasMajor : Option String → Bool
  | none => false
  | some s => containsSub "MAJOR_ISSUES".data (upperChars s.data)

/-! ## trimLog (pipeline-runner.ts lines 284-290) -/

/-- MAX_LOG_LENGTH from runAgentWithStreaming. -/
def MAX_LOG_LENGTH : Nat := 4000

/-- The double newline marking a paragraph boundary. -/
def paraBreak : List Char := ['\n', '\n']

/-- trimLog from runAgentWithStreaming, on the char list of the streaming
log.  When the log exceeds maxLen, the source computes
excess = length - maxLen and cutPoint = indexOf of a double newline starting
at excess; a found cutPoint is at least excess which is at least 1, so the
source guard cutPoint > 0 is exactly the found case. -/
def trimLog (maxLen : Nat) (log : List Char) : List Char :=
  if maxLen < log.length then
    let excess := log.length - maxLen
    match indexOfFrom paraBreak log excess with
    | some cutPoint => log.drop cutPoint
    | none => log.drop excess
  else log

/-! ## runAgentWithStreaming result / watchdog model
(pipeline-runner.ts lines 263-402)

The stream of one agent run is a list of (timestamp, event) pairs with
strictly increasing timestamps measured in ms from the start of the run
(startTime = lastEventTime = 0), plus a flag `hangs` meaning the stream
never terminates by itself after its last listed event.  The watchdog is a
3000 ms interval timer; at a tick at absolute time T it aborts the runner
when T - lastEventTime is at least ABORT_TIMEOUT_MS.  Aborting the runner
terminates the stream (the HeadlessRunner abort contract: the subprocess is
killed), so events after a watchdog abort are never delivered.  The
streaming progress log does not affect the returned result and is projected
away; trimLog above is its only log-side computation a claim mentions. -/

/-- ABORT_TIMEOUT_MS from runAgentWithStreaming. -/
def ABORT_TIMEOUT_MS : Nat := 120000

/-- The watchdog interval cadence (setInterval every 3000 ms). -/
def WATCHDOG_INTERVAL_MS : Nat := 3000

/-- Stream events of one agent run (HeadlessEvent); payloads that only feed
the elided progress log are dropped. -/
inductive HEvent
  | status (message : String)
  | textDelta (text : String)
  | toolStart (name : String)
  | toolResult
  | errorEv (message : String)
  | complete (result : HeadlessResult)
deriving DecidableEq, Repr

/-- The first watchdog tick that would fire an abort given the time of the
last event: the least multiple of 3000 at which at least 120000 ms of
silence have elapsed. -/
def firstAbortTick (lastTime : Nat) : Nat :=
  WATCHDOG_INTERVAL_MS * ((lastTime + ABORT_TIMEOUT_MS + (WATCHDOG_INTERVAL_MS - 1)) / WATCHDOG_INTERVAL_MS)

/-- Whether the watchdog fires strictly before the next event, which arrives
at time t. -/
def wdFire (lastTime t : Nat) : Bool :=
  firstAbortTick lastTime < t

/-- Outcome of runAgentWithStreaming: the HeadlessResult it returns plus
whether runner.abort was invoked by the watchdog. -/
structure StreamOutcome where
  result : HeadlessResult
  abortInvoked : Bool
deriving DecidableEq, Repr

/-- The failure result synthesised when the loop ends without a complete
event (pipeline-runner.ts lines 398-401). -/
def streamFailure (aborted : Bool) : HeadlessResult :=
  { success := false
    error := some { code := "execution_error"
                    message := if aborted then "Agent was unresponsive and was aborted"
                               else "No completion event received" } }

/-- The event loop of runAgentWithStreaming: deliver events in order,
updating lastEventTime; a watchdog abort between events truncates the
stream; a complete event returns its result; stream end without a complete
event synthesises the distinguishing failure (a hanging stream is
eventually aborted by the watchdog since its silence grows without bound). -/
def runAgentStream : List (Nat × HEvent) → Bool → Nat → StreamOutcome
  | [], hangs, _lastTime =>
    if hangs then { result := streamFailure true, abortInvoked := true }
    else { result := streamFailure false, abortInvoked := false }
  | (t, e) :: rest, hangs, lastTime =>
    if wdFire lastTime t then
      { result := streamFailure true, abortInvoked := true }
    else
      match e with
      | .complete r => { result := r, abortInvoked := false }
      | _ => runAgentStream rest hangs t

/-! ## Storage model (storage.ts)

The filesystem plus the JSON (de)serialisation layer is the external
"simple key-based JSON persistence" collaborator of the spec; it is modelled
as a map from paths to whole pipeline records (JSON.stringify followed by
JSON.parse round-trips every field of a pipeline record exactly: strings,
integral timestamps and counts, nested arrays/objects). -/

/-- Path join as used by storage.ts (node path.join on absolute roots). -/
def pjoin (a b : String) : String := a ++ "/" ++ b

/-- getLabPath from storage.ts. -/
def getLabPath (workspaceRootPath : String) : String := pjoin workspaceRootPath "lab"

/-- getProjectsPath from storage.ts. -/
def getProjectsPath (workspaceRootPath : String) : String := pjoin (getLabPath workspaceRootPath) "projects"

/-- getProjectPath from storage.ts. -/
def getProjectPath (workspaceRootPath projectId : String) : String :=
  pjoin (getProjectsPath workspaceRootPath) projectId

/-- getPipelinesPath from storage.ts. -/
def getPipelinesPath (workspaceRootPath projectId : String) : String :=
  pjoin (getProjectPath workspaceRootPath projectId) "pipelines"

/-- The pipeline record file path written by savePipeline and read by
loadPipeline. -/
def pipelineFilePath (workspaceRootPath projectId pipelineId : String) : String :=
  pjoin (getPipelinesPath workspaceRootPath projectId) (pipelineId ++ ".json")

/-- The persisted store: one whole record per path, overwritten wholesale. -/
def FileStore := String → Option LabPipeline

/-- writeFileSync of one whole record. -/
def fsWrite (fs : FileStore) (path : String) (p : LabPipeline) : FileStore :=
  fun q => if q = path then some p else fs q

/-- savePipeline from storage.ts: sets updatedAt on the in-memory record,
then overwrites the whole file.  Returns the new store and the mutated
in-memory record. -/
def savePipeline (now : Nat) (fs : FileStore) (workspaceRootPath : String)
    (pipeline : LabPipeline) : FileStore × LabPipeline :=
  let p2 := { pipeline with updatedAt := now }
  (fsWrite fs (pipelineFilePath workspaceRootPath pipeline.projectId pipeline.id) p2, p2)

/-- loadPipeline from storage.ts: reads and parses the record file, none when
absent. -/
def loadPipeline (fs : FileStore) (workspaceRootPath projectId pipelineId : String) :
    Option LabPipeline :=
  fs (pipelineFilePath workspaceRootPath projectId pipelineId)

/-! ## The runPipeline model (pipeline-runner.ts lines 442-951) -/

/-- The environment a pipeline run executes against: the result the external
agent engine produces for each run slot (think run of persona j; build run
of iteration i; review run of iteration i by persona j), and the abort
schedule: the signal is aborted at per-phase instant k (0 = think checks,
1+2i = build check of iteration i, 2+2i = review checks of iteration i)
when abortAfter is some n with n at most k. -/
structure AgentEnv where
  thinkResult : Nat → HeadlessResult
  buildResult : Nat → HeadlessResult
  reviewResult : Nat → Nat → HeadlessResult
  abortAfter : Option Nat

/-- Whether signal.aborted is observed true at instant k. -/
def AgentEnv.abortedAt (env : AgentEnv) (k : Nat) : Bool :=
  match env.abortAfter with
  | none => false
  | some n => Nat.ble n k

/-- Mutable state of one runPipeline call: the shared pipeline object, the
running cost/token totals (local variables of runPipeline), the sequence of
snapshots persisted by savePipeline, the emitted events, and the fresh-id
counter standing in for randomUUID. -/
structure RunState where
  pipeline : LabPipeline
  totalCostUsd : Nat
  totalTokens : Nat
  saves : List LabPipeline
  events : List PipelineEvent
  nextId : Nat
deriving Repr

/-- A direct mutation of the shared pipeline object (not yet persisted). -/
def mutateP (f : LabPipeline → LabPipeline) (st : RunState) : RunState :=
  { st with pipeline := f st.pipeline }

/-- savePipeline as called by updatePipeline: stamp updatedAt, persist the
whole record. -/
def saveP (now : Nat) (st : RunState) : RunState :=
  let p := { st.pipeline with updatedAt := now }
  { st with pipeline := p, saves := st.saves ++ [p] }

/-- updatePipeline from runPipeline: Object.assign the updates onto the
shared pipeline, stamp updatedAt, persist. -/
def updateP (now : Nat) (f : LabPipeline → LabPipeline) (st : RunState) : RunState :=
  saveP now (mutateP f st)

/-- Emission through the onEvent sink. -/
def emitEv (e : PipelineEvent) (st : RunState) : RunState :=
  { st with events := st.events ++ [e] }

/-- Modify the last element of a list (the phase / run most recently pushed). -/
def modifyLast (f : α → α) : List α → List α
  | [] => []
  | [a] => [f a]
  | a :: b :: rest => a :: modifyLast f (b :: rest)

/-- Modify the element at an index. -/
def modifyIdx (f : α → α) : Nat → List α → List α
  | _, [] => []
  | 0, a :: rest => f a :: rest
  | n + 1, a :: rest => a :: modifyIdx f n rest

/-- Mutate the phase most recently appended to pipeline.phases. -/
def modifyLastPhaseP (f : LabPhase → LabPhase) (p : LabPipeline) : LabPipeline :=
  { p with phases := modifyLast f p.phases }

/-- phase.agents.push(run) on the current phase. -/
def pushAgentLast (run : LabAgentRun) : LabPipeline → LabPipeline :=
  modifyLastPhaseP (fun ph => { ph with agents := ph.agents ++ [run] })

/-- Mutate the run most recently pushed into the current phase. -/
def modifyLastAgentP (f : LabAgentRun → LabAgentRun) : LabPipeline → LabPipeline :=
  modifyLastPhaseP (fun ph => { ph with agents := modifyLast f ph.agents })

/-- Mutate the run at index j of the current phase. -/
def modifyAgentAtLast (j : Nat) (f : LabAgentRun → LabAgentRun) : LabPipeline → LabPipeline :=
  modifyLastPhaseP (fun ph => { ph with agents := modifyIdx f j ph.agents })

/-- The agents of the current (last) phase. -/
def lastAgents (p : LabPipeline) : List LabAgentRun :=
  ((p.phases.getLast?).map LabPhase.agents).getD []

/-- createAgentRun from runPipeline: a conforming LabAgentRun, born running. -/
def createAgentRun (now rid : Nat) (personaId personaName personaIcon : String) : LabAgentRun :=
  { id := rid, personaId := personaId, personaName := personaName,
    personaIcon := personaIcon, status := .running, startedAt := some now }

/-- createPhase from runPipeline: a conforming LabPhase, born running with no
agents. -/
def createPhase (now phid : Nat) (t : PhaseType) : LabPhase :=
  { id := phid, type := t, label := phaseLabel t, status := .running,
    agents := [], startedAt := some now }

/-- agentRun.tokenUsage as assigned from result.usage on success. -/
def applyUsage (u : HeadlessUsage) : TokenUsage :=
  { inputTokens := u.inputTokens, outputTokens := u.outputTokens,
    totalTokens := u.inputTokens + u.outputTokens, costUsd := u.costUsd }

/-- Contribution of one successful result to totalCostUsd (0 when the result
reports no usage). -/
def costOf (r : HeadlessResult) : Nat :=
  match r.usage with
  | some u => u.costUsd
  | none => 0

/-- Contribution of one successful result to totalTokens. -/
def toksOf (r : HeadlessResult) : Nat :=
  match r.usage with
  | some u => u.inputTokens + u.outputTokens
  | none => 0

/-- The success mutation of a run (status, output, completedAt, tokenUsage if
the result reports usage). -/
def completeRun (now : Nat) (r : HeadlessResult) (run : LabAgentRun) : LabAgentRun :=
  { run with
    status := .completed, output := r.response,
    completedAt := some now, tokenUsage := r.usage.map applyUsage }

/-- The failure mutation of a run. -/
def failRunWith (now : Nat) (msg : String) (run : LabAgentRun) : LabAgentRun :=
  { run with status := .failed, error := some msg, completedAt := some now }

/-- The synchronous prefix of one run closure: create the run, push it,
persist, emit agent_started, then checkAborted; an aborted closure settles
immediately as failed (error message of the thrown Error: Pipeline
cancelled), emits agent_failed and persists, exactly like the closure catch
blocks. -/
def startStep (now : Nat) (phaseIndex : Nat) (aborted : Bool) (p : LabPersona)
    (st : RunState) : RunState :=
  let rid := st.nextId
  let st := { st with nextId := st.nextId + 1 }
  let run := createAgentRun now rid p.id p.name p.icon
  let st := updateP now (pushAgentLast run) st
  let st := emitEv (.agentStarted st.pipeline.id phaseIndex rid p.id p.name p.icon) st
  if aborted then
    let st := mutateP (modifyLastAgentP (failRunWith now "Pipeline cancelled")) st
    let st := emitEv (.agentFailed st.pipeline.id phaseIndex rid p.id "Pipeline cancelled") st
    saveP now st
  else st

/-- Pass 1 of a parallel phase: the synchronous prefixes of the run closures
in persona order, exactly as the JS personas.map executes them before the
first await. -/
def startRuns (now : Nat) (phaseIndex : Nat) (aborted : Bool) :
    List LabPersona → RunState → RunState
  | [], st => st
  | p :: rest, st => startRuns now phaseIndex aborted rest (startStep now phaseIndex aborted p st)

/-- Settling of the run at index j of the current phase against its
HeadlessResult: the success / failure branches of the run closures,
each followed by the closure-final updatePipeline. -/
def settleRun (now : Nat) (phaseIndex : Nat) (fallback : String)
    (r : HeadlessResult) (j : Nat) (st : RunState) : RunState :=
  match (lastAgents st.pipeline).get? j with
  | none => st
  | some run =>
    if resultOk r then
      let st := mutateP (modifyAgentAtLast j (completeRun now r)) st
      let st := { st with totalCostUsd := st.totalCostUsd + costOf r,
                          totalTokens := st.totalTokens + toksOf r }
      let st := emitEv (.agentCompleted st.pipeline.id phaseIndex run.id run.personaId
        (r.response.getD "") (r.usage.map applyUsage)) st
      saveP now st
    else
      let msg := errMsgOr r fallback
      let st := mutateP (modifyAgentAtLast j (failRunWith now msg)) st
      let st := emitEv (.agentFailed st.pipeline.id phaseIndex run.id run.personaId msg) st
      saveP now st

/-- Pass 2 of a parallel phase: settle the n runs (indices j, j+1, ...) in
persona order. -/
def settleRuns (now : Nat) (phaseIndex : Nat) (fallback : String)
    (results : Nat → HeadlessResult) : Nat → Nat → RunState → RunState
  | _j, 0, st => st
  | j, n + 1, st =>
    settleRuns now phaseIndex fallback results (j + 1) n
      (settleRun now phaseIndex fallback (results j) j st)

/-- The filter applied to a settled phase: runs that completed with truthy
output (successfulBriefs and reviewResults in the source). -/
def completedWithOutput (agents : List LabAgentRun) : List LabAgentRun :=
  agents.filter (fun r => r.status == .completed && strTruthy r.output)

/-- Opening of a phase: create it, push it onto pipeline.phases, persist,
emit phase_started.  The caller passes the phase index the source computes
(hard-coded 0 for think; phases.length - 1 right after the push — which is
the length right before it — for build and review). -/
def openPhase (now : Nat) (t : PhaseType) (idx : Nat) (st : RunState) : RunState :=
  let phid := st.nextId
  let st := { st with nextId := st.nextId + 1 }
  let st := updateP now (fun p => { p with phases := p.phases ++ [createPhase now phid t] }) st
  emitEv (.phaseStarted st.pipeline.id phid t idx) st

/-- Closing of a successfully finished phase: mark it completed, persist,
emit phase_completed. -/
def finishPhase (now : Nat) (idx : Nat) (t : PhaseType) (st : RunState) : RunState :=
  let st := updateP now
    (modifyLastPhaseP (fun ph => { ph with status := .completed, completedAt := some now })) st
  emitEv (.phaseCompleted st.pipeline.id idx t) st

/-- Both passes of a parallel phase: start every closure, then settle the
results (an aborted phase settled already during pass 1, exactly like the
source closures whose checkAborted threw). -/
def runPhaseBody (now idx : Nat) (fb : String) (R : Nat → HeadlessResult) (ab : Bool)
    (ps : List LabPersona) (st : RunState) : RunState :=
  let st := startRuns now idx ab ps st
  if ab then st else settleRuns now idx fb R 0 ps.length st

/-- ACT 1: THINK (pipeline-runner.ts lines 509-617).  The phase_started and
agent-level events of this phase carry the hard-coded phaseIndex 0 of the
source. -/
def runThinkPhase (now : Nat) (env : AgentEnv) (personas : List LabPersona)
    (st : RunState) : RunState :=
  let st := openPhase now .think 0 st
  let st := runPhaseBody now 0 "Unknown error" env.thinkResult (env.abortedAt 0) personas st
  finishPhase now 0 .think st

/-- How one trip through the build/iterate loop body ends. -/
inductive LoopStep
  | done (st : RunState)
  | finish (st : RunState)
  | next (st : RunState)

/-- Push of the single manager run of a build phase and its agent_started
event. -/
def managerStart (now idx : Nat) (st : RunState) : RunState :=
  let rid := st.nextId
  let st := { st with nextId := st.nextId + 1 }
  let st := updateP now (pushAgentLast (createAgentRun now rid "manager" "Project Manager" "👨‍💻")) st
  emitEv (.agentStarted st.pipeline.id idx rid "manager" "Project Manager" "👨‍💻") st

/-- The fatal end of a build phase (result failure or the caught checkAborted
throw): the run and the phase are marked failed, the pipeline is persisted
as failed carrying the totals, pipeline_error is emitted with the given
message prefix, and runPipeline returns. -/
def buildTerminal (now : Nat) (pre msg : String) (st : RunState) : RunState :=
  let st := mutateP (modifyLastAgentP (failRunWith now msg)) st
  let st := mutateP (modifyLastPhaseP (fun ph => { ph with status := .failed, completedAt := some now })) st
  let st := updateP now (fun p => { p with
    status := .failed,
    totalCostUsd := some st.totalCostUsd, totalTokens := some st.totalTokens }) st
  emitEv (.pipelineError st.pipeline.id (pre ++ msg)) st

/-- The success branch of the build run: complete the run, add its usage to
the totals, emit agent_completed. -/
def buildComplete (now idx rid : Nat) (r : HeadlessResult) (st : RunState) : RunState :=
  let st := mutateP (modifyLastAgentP (completeRun now r)) st
  let st := { st with totalCostUsd := st.totalCostUsd + costOf r,
                      totalTokens := st.totalTokens + toksOf r }
  emitEv (.agentCompleted st.pipeline.id idx rid "manager"
    (r.response.getD "") (r.usage.map applyUsage)) st

/-- One iteration of the BUILD/ITERATE + REVIEW loop body
(pipeline-runner.ts lines 646-894): done = early terminal return, finish =
break toward the completion block, next = continue with iteration i+1. -/
def buildIteration (now : Nat) (env : AgentEnv) (personas : List LabPersona)
    (i : Nat) (st : RunState) : LoopStep :=
  let st := updateP now (fun p => { p with
    iteration := i,
    status := if i == 0 then .building else .iterating }) st
  let bt : PhaseType := if i == 0 then .build else .iterate
  let bIdx := st.pipeline.phases.length
  let st := openPhase now bt bIdx st
  let rid := st.nextId
  let st := managerStart now bIdx st
  if env.abortedAt (1 + 2 * i) then
    -- checkAborted threw inside the try; its catch marks the run and the
    -- phase failed and returns the pipeline as failed
    .done (buildTerminal now "Build phase error: " "Pipeline cancelled" st)
  else
    let r := env.buildResult i
    if resultOk r then
      let st := buildComplete now bIdx rid r st
      let st := finishPhase now bIdx bt st
      -- ACT 3: JUDGE (parallel reviews)
      let st := updateP now (fun p => { p with status := .reviewing }) st
      let rIdx := st.pipeline.phases.length
      let st := openPhase now .review rIdx st
      let st := runPhaseBody now rIdx "Review failed" (env.reviewResult i) (env.abortedAt (2 + 2 * i)) personas st
      let st := finishPhase now rIdx .review st
      let reviewResults := completedWithOutput (lastAgents st.pipeline)
      let hasMajorIssues := reviewResults.any (fun rr => outputHasMajor rr.output)
      if !hasMajorIssues then .finish st
      else if st.pipeline.maxIterations ≤ i then .finish st
      else .next st
    else
      .done (buildTerminal now "Build phase failed: " (errMsgOr r "Build failed") st)

/-- COMPLETE block (pipeline-runner.ts lines 899-915): terminal successful
update carrying the aggregated totals, then the pipeline_completed event. -/
def completeBlock (now : Nat) (st : RunState) : RunState :=
  let st := updateP now (fun p => { p with
    status := .completed, completedAt := some now,
    totalCostUsd := some st.totalCostUsd, totalTokens := some st.totalTokens }) st
  emitEv (.pipelineCompleted st.pipeline.id .completed st.totalCostUsd st.totalTokens) st

/-- The for-loop over iterations; the source loop always leaves through a
break (toward the completion block) or an early return, because the break
condition necessarily holds at i = maxIterations; fuel = maxIterations + 1
therefore never runs out. -/
def buildLoop (now : Nat) (env : AgentEnv) (personas : List LabPersona) :
    Nat → Nat → RunState → RunState
  | 0, _i, st => st
  | fuel + 1, i, st =>
    match buildIteration now env personas i st with
    | .done st2 => st2
    | .finish st2 => completeBlock now st2
    | .next st2 => buildLoop now env personas fuel (i + 1) st2

/-- The state a runPipeline call starts from. -/
def initialState (pipeline0 : LabPipeline) : RunState :=
  { pipeline := pipeline0, totalCostUsd := 0, totalTokens := 0,
    saves := [], events := [], nextId := 0 }

/-- runPipeline (pipeline-runner.ts lines 442-951).  The outer catch of the
source is reachable only through a collaborator throwing (storage write or
event sink); per spec section 7(e) those are programming errors outside the
domain model, so the model has no throwing operations and never takes that
branch. -/
def runPipeline (now : Nat) (env : AgentEnv) (personas : List LabPersona)
    (pipeline0 : LabPipeline) : RunState :=
  let st := emitEv (.pipelineStarted pipeline0.id) (initialState pipeline0)
  let st := updateP now (fun p => { p with status := .thinking }) st
  let st := runThinkPhase now env personas st
  let successfulBriefs := completedWithOutput (lastAgents st.pipeline)
  if successfulBriefs.length == 0 then
    let st := updateP now (fun p => { p with status := .failed }) st
    emitEv (.pipelineError st.pipeline.id
      "All persona briefs failed. Cannot proceed to build phase.") st
  else
    buildLoop now env personas (st.pipeline.maxIterations + 1) 0 st

/-! ## Derived descriptions of settled phases -/

/-- The run a persona contributes in pass 1: running, or already failed with
the cancellation error when the abort signal was observed by the synchronous
closure prefixes. -/
def startedRun (now : Nat) (aborted : Bool) (rid : Nat) (p : LabPersona) : LabAgentRun :=
  if aborted then failRunWith now "Pipeline cancelled" (createAgentRun now rid p.id p.name p.icon)
  else createAgentRun now rid p.id p.name p.icon

/-- The run list of a phase right after pass 1. -/
def startedRuns (now : Nat) (aborted : Bool) : Nat → List LabPersona → List LabAgentRun
  | _, [] => []
  | rid, p :: rest => startedRun now aborted rid p :: startedRuns now aborted (rid + 1) rest

/-- How one run settles against its result. -/
def settleOne (now : Nat) (fallback : String) (r : HeadlessResult) (run : LabAgentRun) : LabAgentRun :=
  if resultOk r then completeRun now r run else failRunWith now (errMsgOr r fallback) run

/-- Pointwise settling of a run list against the result oracle, starting at
slot j. -/
def settledList (now : Nat) (fallback : String) (R : Nat → HeadlessResult) :
    Nat → List LabAgentRun → List LabAgentRun
  | _, [] => []
  | j, a :: rest => settleOne now fallback (R j) a :: settledList now fallback R (j + 1) rest

/-- The final agent list of a fully settled parallel phase. -/
def phaseAgents (now : Nat) (fallback : String) (R : Nat → HeadlessResult)
    (aborted : Bool) (rid : Nat) (ps : List LabPersona) : List LabAgentRun :=
  if aborted then startedRuns now true rid ps
  else settledList now fallback R 0 (startedRuns now false rid ps)

/-- Token total contributed by settling slots j, ..., j+n-1. -/
def sumSettleTok (R : Nat → HeadlessResult) : Nat → Nat → Nat
  | _, 0 => 0
  | j, n + 1 => (if resultOk (R j) then toksOf (R j) else 0) + sumSettleTok R (j + 1) n

/-- Cost total contributed by settling slots j, ..., j+n-1. -/
def sumSettleCost (R : Nat → HeadlessResult) : Nat → Nat → Nat
  | _, 0 => 0
  | j, n + 1 => (if resultOk (R j) then costOf (R j) else 0) + sumSettleCost R (j + 1) n

/-- A result that settles as a completed review mentioning the blocking
marker. -/
def okAndMajor (r : HeadlessResult) : Bool :=
  resultOk r && outputHasMajor r.response

/-- Some slot in j, ..., j+n-1 succeeds. -/
def anySuccessFrom (R : Nat → HeadlessResult) : Nat → Nat → Bool
  | _, 0 => false
  | j, n + 1 => resultOk (R j) || anySuccessFrom R (j + 1) n

/-- Some slot in j, ..., j+n-1 succeeds with a MAJOR_ISSUES output. -/
def anyMajorFrom (R : Nat → HeadlessResult) : Nat → Nat → Bool
  | _, 0 => false
  | j, n + 1 => okAndMajor (R j) || anyMajorFrom R (j + 1) n

/-- The pipeline fields other than phases and updatedAt, for preservation
lemmas. -/
def scalars (p : LabPipeline) :=
  (p.id, p.projectId, p.prompt, p.status, p.iteration, p.maxIterations,
   p.totalTokens, p.totalCostUsd, p.createdAt, p.completedAt)

/-- Type and status of a phase: the projection the phase-shape lemmas track. -/
def phaseShape (ph : LabPhase) : PhaseType × PhaseStatus := (ph.type, ph.status)

/-! ## Phase-level characterisation -/

/-- The record a phase ends in after finishPhase. -/
def phaseDone (now phid : Nat) (t : PhaseType) (agents : List LabAgentRun) : LabPhase :=
  { id := phid, type := t, label := phaseLabel t, status := .completed,
    agents := agents, startedAt := some now, completedAt := some now }

/-- The phase record a failed build iteration leaves behind. -/
def failedBuildPhase (now phid : Nat) (t : PhaseType) (msg : String) (rid : Nat) : LabPhase :=
  { id := phid, type := t, label := phaseLabel t, status := .failed,
    agents := [failRunWith now msg (createAgentRun now rid "manager" "Project Manager" "👨‍💻")],
    startedAt := some now, completedAt := some now }

/-- The state a failed (non-aborted) build run leaves the pipeline in: the
early-return branch of the loop body. -/
def buildFailState (now : Nat) (env : AgentEnv) (i : Nat) (st : RunState) : RunState :=
  let st1 := updateP now (fun p => { p with
    iteration := i,
    status := if i == 0 then .building else .iterating }) st
  let bt : PhaseType := if i == 0 then .build else .iterate
  let bIdx := st1.pipeline.phases.length
  buildTerminal now "Build phase failed: " (errMsgOr (env.buildResult i) "Build failed")
    (managerStart now bIdx (openPhase now bt bIdx st1))

/-- The state a successful build run plus its settled review phase leave the
pipeline in, at the loop decision point. -/
def buildOkState (now : Nat) (env : AgentEnv) (ps : List LabPersona) (i : Nat)
    (st : RunState) : RunState :=
  let st1 := updateP now (fun p => { p with
    iteration := i,
    status := if i == 0 then .building else .iterating }) st
  let bt : PhaseType := if i == 0 then .build else .iterate
  let bIdx := st1.pipeline.phases.length
  let st2 := openPhase now bt bIdx st1
  let rid := st2.nextId
  let st3 := managerStart now bIdx st2
  let st4 := buildComplete now bIdx rid (env.buildResult i) st3
  let st5 := finishPhase now bIdx bt st4
  let st6 := updateP now (fun p => { p with status := .reviewing }) st5
  let rIdx := st6.pipeline.phases.length
  let st7 := openPhase now .review rIdx st6
  let st8 := runPhaseBody now rIdx "Review failed" (env.reviewResult i)
    (env.abortedAt (2 + 2 * i)) ps st7
  finishPhase now rIdx .review st8

/-! ## Stream watchdog lemmas -/

/-- Whether an event is the terminal complete event. -/
def isCompleteEv : HEvent → Bool
  | .complete _ => true
  | _ => false

/-- Time of the last event of a prefix of the stream. -/
def lastTimeOf : List (Nat × HEvent) → Nat → Nat
  | [], init => init
  | (t, _) :: rest, _ => lastTimeOf rest t

/-- A stream prefix the loop survives: no watchdog firing before any of its
events and no complete event in it. -/
def cleanPrefix : List (Nat × HEvent) → Nat → Bool
  | [], _ => true
  | (t, e) :: rest, last => !wdFire last t && !isCompleteEv e && cleanPrefix rest t

/-! ## Concrete fixtures for counterexamples and witnesses -/

/-- A successful result with usage, standing for a run the engine finished. -/
def okRes (s : String) : HeadlessResult :=
  { success := true, response := some s,
    usage := some { inputTokens := 10, outputTokens := 5, costUsd := 3 } }

/-- The failure an in-flight run settles into when the abort kills its
stream (runAgentWithStreaming with no completion event). -/
def abortedRes : HeadlessResult :=
  { success := false,
    error := some { code := "execution_error", message := "No completion event received" } }

/-- Five personas, as in the spec scenario of cancelling a think phase with
3 of 5 runs still in flight. -/
def personas5 : List LabPersona :=
  [{ id := "p1", name := "P1", icon := "i1" }, { id := "p2", name := "P2", icon := "i2" },
   { id := "p3", name := "P3", icon := "i3" }, { id := "p4", name := "P4", icon := "i4" },
   { id := "p5", name := "P5", icon := "i5" }]

/-- A freshly created pipeline record (createPipeline in storage.ts):
pending, no phases, iteration 0. -/
def freshPipeline : LabPipeline :=
  { id := "run-1", projectId := "proj", prompt := "task", status := .pending, phases := [],
    iteration := 0, maxIterations := 2, createdAt := 0, updatedAt := 0 }

/-- The environment of the C2 scenario: the signal fires while the think
phase is in flight (after every think closure has synchronously started, so
instant 1 is the first aborted check); personas 1 and 2 had already
completed, personas 3-5 were killed mid-flight and settle as failures. -/
def envCancelMidThink : AgentEnv :=
  { thinkResult := fun j => if j < 2 then okRes "brief" else abortedRes,
    buildResult := fun _ => okRes "built",
    reviewResult := fun _ _ => okRes "Rating: PASS",
    abortAfter := some 1 }

/-- All five think runs fail (the engine reports failures). -/
def envAllThinkFail : AgentEnv :=
  { thinkResult := fun _ => abortedRes,
    buildResult := fun _ => okRes "built",
    reviewResult := fun _ _ => okRes "Rating: PASS",
    abortAfter := none }

/-- An environment whose build run fails at every iteration. -/
def envBuildFail : AgentEnv :=
  { thinkResult := fun _ => okRes "brief",
    buildResult := fun _ =>
      { success := false, error := some { code := "execution_error", message := "boom" } },
    reviewResult := fun _ _ => okRes "Rating: PASS",
    abortAfter := none }

/-! ## runPipeline composition lemmas -/

/-- The state right after ACT 1 inside runPipeline. -/
def thinkState (now : Nat) (env : AgentEnv) (ps : List LabPersona) (p0 : LabPipeline) : RunState :=
  runThinkPhase now env ps (updateP now (fun p => { p with status := .thinking })
    (emitEv (.pipelineStarted p0.id) (initialState p0)))

/-- All runs succeed; reviews rate PASS. -/
def envNoMajor : AgentEnv :=
  { thinkResult := fun _ => okRes "brief",
    buildResult := fun _ => okRes "built",
    reviewResult := fun _ _ => okRes "Rating: PASS",
    abortAfter := none }

/-- All runs succeed; every review rates MAJOR_ISSUES (written lower-case to
exercise the case-insensitive match). -/
def envAllMajor : AgentEnv :=
  { thinkResult := fun _ => okRes "brief",
    buildResult := fun _ => okRes "built",
    reviewResult := fun _ _ => okRes "Rating: major_issues found",
    abortAfter := none }

/-! ## Phase status discipline (runPipeline writes to LabPhase.status) -/

/-- The phase statuses runPipeline ever assigns: running at creation
(createPhase), completed (finishPhase) or failed (the build catch). -/
def okSt (s : PhaseStatus) : Prop :=
  s = .running ∨ s = .completed ∨ s = .failed

instance (s : PhaseStatus) : Decidable (okSt s) := by
  unfold okSt
  infer_instance

/-- Every phase of the record carries an assigned status: pending and
skipped never occur. -/
def okPhases (p : LabPipeline) : Prop :=
  ∀ ph ∈ p.phases, okSt ph.status

instance (p : LabPipeline) : Decidable (okPhases p) := by
  unfold okPhases
  infer_instance

/-- One step of the phase status order: unchanged, or a running phase
closed into completed or failed. -/
def sLe (a b : PhaseStatus) : Prop :=
  a = b ∨ (a = .running ∧ (b = .completed ∨ b = .failed))

/-- Evolution order of the pipeline record: phases are only appended, and
each already-present phase status moves along sLe. -/
def PhaseLe (p q : LabPipeline) : Prop :=
  p.phases.length ≤ q.phases.length
  ∧ ∀ i a b, p.phases.get? i = some a → q.phases.get? i = some b → sLe a.status b.status

/-- The record ends in a still-open phase. -/
def lastRunning (p : LabPipeline) : Prop :=
  ∃ init ph, p.phases = init ++ [ph] ∧ ph.status = .running

/-- Status discipline of a running state: the current record and every
persisted snapshot are disciplined, and the persisted trace is monotone
(consecutive snapshots, and the last snapshot against the live record). -/
def TraceOk (st : RunState) : Prop :=
  okPhases st.pipeline
  ∧ (∀ s ∈ st.saves, okPhases s)
  ∧ List.Chain' PhaseLe st.saves
  ∧ (∀ s, st.saves.getLast? = some s → PhaseLe s st.pipeline)

/-- The state a loop step carries. -/
def LoopStep.stateOf : LoopStep → RunState
  | .done st => st
  | .finish st => st
  | .next st => st

/-- The state the caught checkAborted throw of a build phase leaves the
pipeline in: the cancellation-shaped early return of the loop body. -/
def buildAbortState (now : Nat) (i : Nat) (st : RunState) : RunState :=
  let st1 := updateP now (fun p => { p with
    iteration := i,
    status := if i == 0 then .building else .iterating }) st
  let bt : PhaseType := if i == 0 then .build else .iterate
  let bIdx := st1.pipeline.phases.length
  buildTerminal now "Build phase error: " "Pipeline cancelled"
    (managerStart now bIdx (openPhase now bt bIdx st1))

/-! ## List lemmas for the pass characterisations -/

theorem modifyLast_concat (f : α → α) : ∀ (l : List α) (a : α),
    modifyLast f (l ++ [a]) = l ++ [f a]
  | [], _ => rfl
  | x :: xs, a => by
    cases xs with
    | nil => rfl
    | cons b rest =>
      have ih := modifyLast_concat f (b :: rest) a
      simp only [List.cons_append, modifyLast] at ih ⊢
      exact congrArg (List.cons x) ih

theorem modifyIdx_append (f : α → α) : ∀ (l₁ : List α) (t : α) (l₂ : List α),
    modifyIdx f l₁.length (l₁ ++ t :: l₂) = l₁ ++ f t :: l₂
  | [], _, _ => rfl
  | x :: xs, t, l₂ => by
    simp only [List.cons_append, List.length_cons, modifyIdx]
    exact congrArg (List.cons x) (modifyIdx_append f xs t l₂)

theorem get?_append_cons (t : α) (l₂ : List α) : ∀ (l₁ : List α),
    (l₁ ++ t :: l₂).get? l₁.length = some t
  | [] => rfl
  | x :: xs => by
    simpa using get?_append_cons t l₂ xs

/-- lastAgents of a pipeline whose phase list ends in ph. -/
theorem lastAgents_concat {p : LabPipeline} {init : List LabPhase} {ph : LabPhase}
    (h : p.phases = init ++ [ph]) : lastAgents p = ph.agents := by
  simp [lastAgents, h, List.getLast?_concat]

/-! ## Simp lemmas for the state operations -/

@[simp] theorem emitEv_pipeline (e : PipelineEvent) (st : RunState) :
    (emitEv e st).pipeline = st.pipeline := rfl

@[simp] theorem emitEv_nextId (e : PipelineEvent) (st : RunState) :
    (emitEv e st).nextId = st.nextId := rfl

@[simp] theorem emitEv_totalTokens (e : PipelineEvent) (st : RunState) :
    (emitEv e st).totalTokens = st.totalTokens := rfl

@[simp] theorem emitEv_totalCostUsd (e : PipelineEvent) (st : RunState) :
    (emitEv e st).totalCostUsd = st.totalCostUsd := rfl

@[simp] theorem saveP_pipeline_phases (now : Nat) (st : RunState) :
    (saveP now st).pipeline.phases = st.pipeline.phases := rfl

@[simp] theorem saveP_scalars (now : Nat) (st : RunState) :
    scalars (saveP now st).pipeline = scalars st.pipeline := rfl

@[simp] theorem saveP_nextId (now : Nat) (st : RunState) :
    (saveP now st).nextId = st.nextId := rfl

@[simp] theorem saveP_totalTokens (now : Nat) (st : RunState) :
    (saveP now st).totalTokens = st.totalTokens := rfl

@[simp] theorem saveP_totalCostUsd (now : Nat) (st : RunState) :
    (saveP now st).totalCostUsd = st.totalCostUsd := rfl

@[simp] theorem mutateP_pipeline (f : LabPipeline → LabPipeline) (st : RunState) :
    (mutateP f st).pipeline = f st.pipeline := rfl

@[simp] theorem mutateP_nextId (f : LabPipeline → LabPipeline) (st : RunState) :
    (mutateP f st).nextId = st.nextId := rfl

@[simp] theorem mutateP_totalTokens (f : LabPipeline → LabPipeline) (st : RunState) :
    (mutateP f st).totalTokens = st.totalTokens := rfl

@[simp] theorem mutateP_totalCostUsd (f : LabPipeline → LabPipeline) (st : RunState) :
    (mutateP f st).totalCostUsd = st.totalCostUsd := rfl

@[simp] theorem updateP_pipeline_phases (now : Nat) (f : LabPipeline → LabPipeline) (st : RunState) :
    (updateP now f st).pipeline.phases = (f st.pipeline).phases := rfl

@[simp] theorem updateP_scalars (now : Nat) (f : LabPipeline → LabPipeline) (st : RunState) :
    scalars (updateP now f st).pipeline = scalars (f st.pipeline) := rfl

@[simp] theorem updateP_nextId (now : Nat) (f : LabPipeline → LabPipeline) (st : RunState) :
    (updateP now f st).nextId = st.nextId := rfl

@[simp] theorem updateP_totalTokens (now : Nat) (f : LabPipeline → LabPipeline) (st : RunState) :
    (updateP now f st).totalTokens = st.totalTokens := rfl

@[simp] theorem updateP_totalCostUsd (now : Nat) (f : LabPipeline → LabPipeline) (st : RunState) :
    (updateP now f st).totalCostUsd = st.totalCostUsd := rfl

@[simp] theorem scalars_pushAgentLast (run : LabAgentRun) (p : LabPipeline) :
    scalars (pushAgentLast run p) = scalars p := rfl

@[simp] theorem scalars_modifyLastPhaseP (g : LabPhase → LabPhase) (p : LabPipeline) :
    scalars (modifyLastPhaseP g p) = scalars p := rfl

@[simp] theorem scalars_modifyLastAgentP (g : LabAgentRun → LabAgentRun) (p : LabPipeline) :
    scalars (modifyLastAgentP g p) = scalars p := rfl

@[simp] theorem scalars_modifyAgentAtLast (j : Nat) (g : LabAgentRun → LabAgentRun) (p : LabPipeline) :
    scalars (modifyAgentAtLast j g p) = scalars p := rfl

/-! ## Pass 1 characterisation -/

theorem startStep_phases {st : RunState} {init : List LabPhase} {ph : LabPhase}
    (now idx : Nat) (ab : Bool) (p : LabPersona)
    (h : st.pipeline.phases = init ++ [ph]) :
    (startStep now idx ab p st).pipeline.phases
      = init ++ [{ ph with agents := ph.agents ++ [startedRun now ab st.nextId p] }] := by
  cases ab <;>
    simp [startStep, startedRun, pushAgentLast, modifyLastPhaseP, modifyLastAgentP,
      h, modifyLast_concat]

theorem startStep_scalars (now idx : Nat) (ab : Bool) (p : LabPersona) (st : RunState) :
    scalars (startStep now idx ab p st).pipeline = scalars st.pipeline := by
  cases ab <;> simp [startStep]

theorem startStep_nextId (now idx : Nat) (ab : Bool) (p : LabPersona) (st : RunState) :
    (startStep now idx ab p st).nextId = st.nextId + 1 := by
  cases ab <;> simp [startStep]

theorem startStep_totalTokens (now idx : Nat) (ab : Bool) (p : LabPersona) (st : RunState) :
    (startStep now idx ab p st).totalTokens = st.totalTokens := by
  cases ab <;> simp [startStep]

theorem startStep_totalCostUsd (now idx : Nat) (ab : Bool) (p : LabPersona) (st : RunState) :
    (startStep now idx ab p st).totalCostUsd = st.totalCostUsd := by
  cases ab <;> simp [startStep]

theorem startRuns_spec (now idx : Nat) (ab : Bool) :
    ∀ (ps : List LabPersona) (st : RunState) (init : List LabPhase) (ph : LabPhase),
    st.pipeline.phases = init ++ [ph] →
    ((startRuns now idx ab ps st).pipeline.phases
        = init ++ [{ ph with agents := ph.agents ++ startedRuns now ab st.nextId ps }]
    ∧ scalars (startRuns now idx ab ps st).pipeline = scalars st.pipeline
    ∧ (startRuns now idx ab ps st).nextId = st.nextId + ps.length
    ∧ (startRuns now idx ab ps st).totalTokens = st.totalTokens
    ∧ (startRuns now idx ab ps st).totalCostUsd = st.totalCostUsd) := by
  intro ps
  induction ps with
  | nil =>
    intro st init ph h
    simp [startRuns, startedRuns, h]
  | cons p rest ih =>
    intro st init ph h
    obtain ⟨e1, e2, e3, e4, e5⟩ :=
      ih (startStep now idx ab p st) init _ (startStep_phases now idx ab p h)
    simp only [startRuns]
    refine ⟨?_, ?_, ?_, ?_, ?_⟩
    · rw [e1, startStep_nextId]
      simp [startedRuns, List.append_assoc]
    · rw [e2, startStep_scalars]
    · rw [e3, startStep_nextId, List.length_cons]; omega
    · rw [e4, startStep_totalTokens]
    · rw [e5, startStep_totalCostUsd]

theorem startedRuns_length (now : Nat) (ab : Bool) :
    ∀ (rid : Nat) (ps : List LabPersona), (startedRuns now ab rid ps).length = ps.length
  | _, [] => rfl
  | rid, _ :: rest => by
    simp [startedRuns, startedRuns_length now ab (rid + 1) rest]

/-! ## Pass 2 characterisation -/

theorem settleRun_spec (now idx : Nat) (fb : String) (r : HeadlessResult)
    {st : RunState} {init : List LabPhase} {ph : LabPhase}
    {done : List LabAgentRun} {t : LabAgentRun} {rest : List LabAgentRun}
    (h : st.pipeline.phases = init ++ [ph]) (ha : ph.agents = done ++ t :: rest) :
    ((settleRun now idx fb r done.length st).pipeline.phases
        = init ++ [{ ph with agents := done ++ settleOne now fb r t :: rest }]
    ∧ scalars (settleRun now idx fb r done.length st).pipeline = scalars st.pipeline
    ∧ (settleRun now idx fb r done.length st).nextId = st.nextId
    ∧ (settleRun now idx fb r done.length st).totalTokens
        = st.totalTokens + (if resultOk r then toksOf r else 0)
    ∧ (settleRun now idx fb r done.length st).totalCostUsd
        = st.totalCostUsd + (if resultOk r then costOf r else 0)) := by
  have hg : (lastAgents st.pipeline)[done.length]? = some t := by
    rw [← List.get?_eq_getElem?, lastAgents_concat h, ha]
    exact get?_append_cons t rest done
  by_cases hr : resultOk r = true
  · simp [settleRun, hg, hr, settleOne, modifyAgentAtLast, modifyLastPhaseP, h, ha,
      modifyLast_concat, modifyIdx_append, scalars, saveP, mutateP, emitEv]
  · simp only [Bool.not_eq_true] at hr
    simp [settleRun, hg, hr, settleOne, modifyAgentAtLast, modifyLastPhaseP, h, ha,
      modifyLast_concat, modifyIdx_append, scalars, saveP, mutateP, emitEv]

theorem settleRuns_spec (now idx : Nat) (fb : String) (R : Nat → HeadlessResult) :
    ∀ (todo : List LabAgentRun) (st : RunState) (init : List LabPhase) (ph : LabPhase)
      (done : List LabAgentRun),
    st.pipeline.phases = init ++ [ph] → ph.agents = done ++ todo →
    ((settleRuns now idx fb R done.length todo.length st).pipeline.phases
        = init ++ [{ ph with agents := done ++ settledList now fb R done.length todo }]
    ∧ scalars (settleRuns now idx fb R done.length todo.length st).pipeline = scalars st.pipeline
    ∧ (settleRuns now idx fb R done.length todo.length st).nextId = st.nextId
    ∧ (settleRuns now idx fb R done.length todo.length st).totalTokens
        = st.totalTokens + sumSettleTok R done.length todo.length
    ∧ (settleRuns now idx fb R done.length todo.length st).totalCostUsd
        = st.totalCostUsd + sumSettleCost R done.length todo.length) := by
  intro todo
  induction todo with
  | nil =>
    intro st init ph done h ha
    rw [List.append_nil] at ha
    subst ha
    simp [settleRuns, settledList, sumSettleTok, sumSettleCost, h]
  | cons t rest ih =>
    intro st init ph done h ha
    obtain ⟨f1, f2, f3, f4, f5⟩ := settleRun_spec now idx fb (R done.length) h ha
    have hlen : (done ++ [settleOne now fb (R done.length) t]).length = done.length + 1 := by
      simp
    have ha2 : ({ ph with agents := done ++ settleOne now fb (R done.length) t :: rest } : LabPhase).agents
        = (done ++ [settleOne now fb (R done.length) t]) ++ rest := by
      simp
    obtain ⟨e1, e2, e3, e4, e5⟩ :=
      ih (settleRun now idx fb (R done.length) done.length st) init _
        (done ++ [settleOne now fb (R done.length) t]) f1 ha2
    rw [hlen] at e1 e2 e3 e4 e5
    simp only [settleRuns, List.length_cons]
    refine ⟨?_, ?_, ?_, ?_, ?_⟩
    · rw [e1]
      simp [settledList, List.append_assoc]
    · rw [e2, f2]
    · rw [e3, f3]
    · rw [e4, f4, sumSettleTok]; omega
    · rw [e5, f5, sumSettleCost]; omega

theorem openPhase_spec (now : Nat) (t : PhaseType) (idx : Nat) (st : RunState) :
    ((openPhase now t idx st).pipeline.phases
        = st.pipeline.phases ++ [createPhase now st.nextId t]
    ∧ scalars (openPhase now t idx st).pipeline = scalars st.pipeline
    ∧ (openPhase now t idx st).nextId = st.nextId + 1
    ∧ (openPhase now t idx st).totalTokens = st.totalTokens
    ∧ (openPhase now t idx st).totalCostUsd = st.totalCostUsd) := by
  simp [openPhase, scalars, updateP, saveP, mutateP, emitEv]

theorem finishPhase_spec (now idx : Nat) (t : PhaseType) {st : RunState}
    {init : List LabPhase} {ph : LabPhase} (h : st.pipeline.phases = init ++ [ph]) :
    ((finishPhase now idx t st).pipeline.phases
        = init ++ [{ ph with status := .completed, completedAt := some now }]
    ∧ scalars (finishPhase now idx t st).pipeline = scalars st.pipeline
    ∧ (finishPhase now idx t st).nextId = st.nextId
    ∧ (finishPhase now idx t st).totalTokens = st.totalTokens
    ∧ (finishPhase now idx t st).totalCostUsd = st.totalCostUsd) := by
  simp [finishPhase, modifyLastPhaseP, h, modifyLast_concat, scalars,
    updateP, saveP, mutateP, emitEv]

theorem runPhaseBody_spec (now idx : Nat) (fb : String) (R : Nat → HeadlessResult)
    (ab : Bool) (ps : List LabPersona) {st : RunState}
    {init : List LabPhase} {ph : LabPhase}
    (h : st.pipeline.phases = init ++ [ph]) (ha : ph.agents = []) :
    ((runPhaseBody now idx fb R ab ps st).pipeline.phases
        = init ++ [{ ph with agents := phaseAgents now fb R ab st.nextId ps }]
    ∧ scalars (runPhaseBody now idx fb R ab ps st).pipeline = scalars st.pipeline
    ∧ (runPhaseBody now idx fb R ab ps st).nextId = st.nextId + ps.length
    ∧ (runPhaseBody now idx fb R ab ps st).totalTokens
        = st.totalTokens + (if ab then 0 else sumSettleTok R 0 ps.length)
    ∧ (runPhaseBody now idx fb R ab ps st).totalCostUsd
        = st.totalCostUsd + (if ab then 0 else sumSettleCost R 0 ps.length)) := by
  obtain ⟨a1, a2, a3, a4, a5⟩ := startRuns_spec now idx ab ps st init ph h
  rw [ha] at a1
  simp only [List.nil_append] at a1
  cases ab with
  | true =>
    simp only [runPhaseBody, if_true, phaseAgents]
    exact ⟨a1, a2, a3, by rw [a4]; simp, by rw [a5]; simp⟩
  | false =>
    have ha2 : ({ ph with agents := startedRuns now false st.nextId ps } : LabPhase).agents
        = ([] : List LabAgentRun) ++ startedRuns now false st.nextId ps := by simp
    obtain ⟨b1, b2, b3, b4, b5⟩ :=
      settleRuns_spec now idx fb R (startedRuns now false st.nextId ps)
        (startRuns now idx false ps st) init _ [] a1 ha2
    simp only [List.length_nil, startedRuns_length, List.nil_append] at b1 b2 b3 b4 b5
    simp only [runPhaseBody, Bool.false_eq_true, if_false, phaseAgents]
    exact ⟨b1, by rw [b2, a2], by rw [b3, a3], by rw [b4, a4], by rw [b5, a5]⟩

theorem runThinkPhase_spec (now : Nat) (env : AgentEnv) (ps : List LabPersona) (st : RunState) :
    ((runThinkPhase now env ps st).pipeline.phases
        = st.pipeline.phases
          ++ [phaseDone now st.nextId .think
                (phaseAgents now "Unknown error" env.thinkResult (env.abortedAt 0) (st.nextId + 1) ps)]
    ∧ scalars (runThinkPhase now env ps st).pipeline = scalars st.pipeline
    ∧ (runThinkPhase now env ps st).nextId = st.nextId + 1 + ps.length
    ∧ (runThinkPhase now env ps st).totalTokens
        = st.totalTokens
          + (if env.abortedAt 0 then 0 else sumSettleTok env.thinkResult 0 ps.length)
    ∧ (runThinkPhase now env ps st).totalCostUsd
        = st.totalCostUsd
          + (if env.abortedAt 0 then 0 else sumSettleCost env.thinkResult 0 ps.length)) := by
  obtain ⟨o1, o2, o3, o4, o5⟩ := openPhase_spec now .think 0 st
  obtain ⟨b1, b2, b3, b4, b5⟩ :=
    runPhaseBody_spec now 0 "Unknown error" env.thinkResult (env.abortedAt 0) ps o1 rfl
  rw [o3] at b1 b3
  obtain ⟨f1, f2, f3, f4, f5⟩ := finishPhase_spec now 0 .think b1
  refine ⟨?_, ?_, ?_, ?_, ?_⟩
  · rw [show runThinkPhase now env ps st
        = finishPhase now 0 .think
            (runPhaseBody now 0 "Unknown error" env.thinkResult (env.abortedAt 0) ps
              (openPhase now .think 0 st)) from rfl, f1]
    simp [createPhase, phaseDone]
  · rw [show runThinkPhase now env ps st
        = finishPhase now 0 .think
            (runPhaseBody now 0 "Unknown error" env.thinkResult (env.abortedAt 0) ps
              (openPhase now .think 0 st)) from rfl, f2, b2, o2]
  · rw [show runThinkPhase now env ps st
        = finishPhase now 0 .think
            (runPhaseBody now 0 "Unknown error" env.thinkResult (env.abortedAt 0) ps
              (openPhase now .think 0 st)) from rfl, f3, b3]
  · rw [show runThinkPhase now env ps st
        = finishPhase now 0 .think
            (runPhaseBody now 0 "Unknown error" env.thinkResult (env.abortedAt 0) ps
              (openPhase now .think 0 st)) from rfl, f4, b4, o4]
  · rw [show runThinkPhase now env ps st
        = finishPhase now 0 .think
            (runPhaseBody now 0 "Unknown error" env.thinkResult (env.abortedAt 0) ps
              (openPhase now .think 0 st)) from rfl, f5, b5, o5]

theorem managerStart_spec (now idx : Nat) {st : RunState}
    {init : List LabPhase} {ph : LabPhase} (h : st.pipeline.phases = init ++ [ph]) :
    ((managerStart now idx st).pipeline.phases
        = init ++ [{ ph with
            agents := ph.agents ++ [createAgentRun now st.nextId "manager" "Project Manager" "👨‍💻"] }]
    ∧ scalars (managerStart now idx st).pipeline = scalars st.pipeline
    ∧ (managerStart now idx st).nextId = st.nextId + 1
    ∧ (managerStart now idx st).totalTokens = st.totalTokens
    ∧ (managerStart now idx st).totalCostUsd = st.totalCostUsd) := by
  simp [managerStart, pushAgentLast, modifyLastPhaseP, h, modifyLast_concat, scalars,
    updateP, saveP, mutateP, emitEv]

theorem buildComplete_spec (now idx rid : Nat) (r : HeadlessResult) {st : RunState}
    {init : List LabPhase} {ph : LabPhase} {ags : List LabAgentRun} {t : LabAgentRun}
    (h : st.pipeline.phases = init ++ [ph]) (ha : ph.agents = ags ++ [t]) :
    ((buildComplete now idx rid r st).pipeline.phases
        = init ++ [{ ph with agents := ags ++ [completeRun now r t] }]
    ∧ scalars (buildComplete now idx rid r st).pipeline = scalars st.pipeline
    ∧ (buildComplete now idx rid r st).nextId = st.nextId
    ∧ (buildComplete now idx rid r st).totalTokens = st.totalTokens + toksOf r
    ∧ (buildComplete now idx rid r st).totalCostUsd = st.totalCostUsd + costOf r) := by
  simp [buildComplete, modifyLastAgentP, modifyLastPhaseP, h, ha, modifyLast_concat,
    scalars, mutateP, emitEv]

theorem buildTerminal_spec (now : Nat) (pre msg : String) {st : RunState}
    {init : List LabPhase} {ph : LabPhase} {ags : List LabAgentRun} {t : LabAgentRun}
    (h : st.pipeline.phases = init ++ [ph]) (ha : ph.agents = ags ++ [t]) :
    ((buildTerminal now pre msg st).pipeline.phases
        = init ++ [{ ph with
            agents := ags ++ [failRunWith now msg t],
            status := .failed, completedAt := some now }]
    ∧ (buildTerminal now pre msg st).pipeline.status = .failed
    ∧ (buildTerminal now pre msg st).pipeline.totalTokens = some st.totalTokens
    ∧ (buildTerminal now pre msg st).pipeline.totalCostUsd = some st.totalCostUsd
    ∧ (buildTerminal now pre msg st).pipeline.id = st.pipeline.id
    ∧ (buildTerminal now pre msg st).events
        = st.events ++ [.pipelineError st.pipeline.id (pre ++ msg)]) := by
  simp [buildTerminal, modifyLastAgentP, modifyLastPhaseP, h, ha, modifyLast_concat,
    updateP, saveP, mutateP, emitEv]

/-- A build iteration whose (non-aborted) build run fails ends the pipeline:
status failed, exactly one failed build-type phase appended, no review phase,
the totals recorded on the terminal snapshot. -/
theorem buildIteration_fail_spec (now : Nat) (env : AgentEnv) (ps : List LabPersona)
    (i : Nat) (st : RunState) (hab : env.abortedAt (1 + 2 * i) = false)
    (hr : resultOk (env.buildResult i) = false) :
    (buildIteration now env ps i st = .done (buildFailState now env i st)
    ∧ (buildFailState now env i st).pipeline.status = .failed
    ∧ (buildFailState now env i st).pipeline.phases = st.pipeline.phases ++
        [failedBuildPhase now st.nextId (if i == 0 then .build else .iterate)
          (errMsgOr (env.buildResult i) "Build failed") (st.nextId + 1)]
    ∧ (buildFailState now env i st).pipeline.totalTokens = some st.totalTokens
    ∧ (buildFailState now env i st).pipeline.totalCostUsd = some st.totalCostUsd
    ∧ (buildFailState now env i st).pipeline.id = st.pipeline.id) := by
  set st1 := updateP now (fun p => { p with
    iteration := i,
    status := if i == 0 then .building else .iterating }) st with hst1
  set bt : PhaseType := if i == 0 then .build else .iterate with hbt
  set bIdx := st1.pipeline.phases.length with hbIdx
  have h1p : st1.pipeline.phases = st.pipeline.phases := rfl
  have h1n : st1.nextId = st.nextId := rfl
  obtain ⟨o1, o2, o3, o4, o5⟩ := openPhase_spec now bt bIdx st1
  rw [h1p, h1n] at o1
  obtain ⟨m1, m2, m3, m4, m5⟩ := managerStart_spec now bIdx o1
  rw [o3, h1n] at m1
  simp only [createPhase, List.nil_append] at m1
  obtain ⟨t1, t2, t3, t4, t5, t6⟩ :=
    buildTerminal_spec now "Build phase failed: " (errMsgOr (env.buildResult i) "Build failed")
      m1 (List.nil_append
        [createAgentRun now (st.nextId + 1) "manager" "Project Manager" "👨‍💻"]).symm
  have heq : buildIteration now env ps i st = .done (buildFailState now env i st) := by
    simp only [buildIteration, buildFailState, hab, hr, Bool.false_eq_true, if_false]
  have hbf : buildFailState now env i st
      = buildTerminal now "Build phase failed: " (errMsgOr (env.buildResult i) "Build failed")
          (managerStart now bIdx (openPhase now bt bIdx st1)) := rfl
  have htok : (managerStart now bIdx (openPhase now bt bIdx st1)).totalTokens = st.totalTokens := by
    rw [m4, o4]; rfl
  have hcost : (managerStart now bIdx (openPhase now bt bIdx st1)).totalCostUsd = st.totalCostUsd := by
    rw [m5, o5]; rfl
  have hid : (managerStart now bIdx (openPhase now bt bIdx st1)).pipeline.id = st.pipeline.id := by
    have h2 := m2.trans (o2.trans (rfl : scalars st1.pipeline = scalars st1.pipeline))
    have h3 : scalars st1.pipeline = scalars st1.pipeline := rfl
    have h4 := m2.trans o2
    simp only [scalars, Prod.mk.injEq] at h4
    exact h4.1
  refine ⟨heq, ?_, ?_, ?_, ?_, ?_⟩
  · rw [hbf, t2]
  · rw [hbf, t1]
    simp [failedBuildPhase]
  · rw [hbf, t3, htok]
  · rw [hbf, t4, hcost]
  · rw [hbf, t5, hid]

/-- With the build check not aborted and the build run succeeding, the loop
body is exactly the decision applied to buildOkState. -/
theorem buildIteration_eq_decision (now : Nat) (env : AgentEnv) (ps : List LabPersona)
    (i : Nat) (st : RunState) (hab : env.abortedAt (1 + 2 * i) = false)
    (hok : resultOk (env.buildResult i) = true) :
    buildIteration now env ps i st =
      (if ((completedWithOutput (lastAgents (buildOkState now env ps i st).pipeline)).any
            (fun rr => outputHasMajor rr.output)) = false then
        .finish (buildOkState now env ps i st)
      else if (buildOkState now env ps i st).pipeline.maxIterations ≤ i then
        .finish (buildOkState now env ps i st)
      else .next (buildOkState now env ps i st)) := by
  simp only [buildIteration, buildOkState, hab, hok, Bool.false_eq_true, if_false, if_true,
    Bool.not_eq_true']

/-- Characterisation of buildOkState: one completed build-type phase and one
completed review phase appended, status reviewing, iteration recorded,
identifiers and bounds preserved, totals advanced by the build usage and
the settled review usages. -/
theorem buildOkState_spec (now : Nat) (env : AgentEnv) (ps : List LabPersona)
    (i : Nat) (st : RunState) :
    ((buildOkState now env ps i st).pipeline.phases = st.pipeline.phases ++
        [phaseDone now st.nextId (if i == 0 then .build else .iterate)
          [completeRun now (env.buildResult i)
            (createAgentRun now (st.nextId + 1) "manager" "Project Manager" "👨‍💻")],
         phaseDone now (st.nextId + 2) .review
          (phaseAgents now "Review failed" (env.reviewResult i)
            (env.abortedAt (2 + 2 * i)) (st.nextId + 3) ps)]
    ∧ scalars (buildOkState now env ps i st).pipeline
        = scalars { st.pipeline with status := .reviewing, iteration := i }
    ∧ (buildOkState now env ps i st).nextId = st.nextId + 3 + ps.length
    ∧ (buildOkState now env ps i st).totalTokens
        = st.totalTokens + toksOf (env.buildResult i)
          + (if env.abortedAt (2 + 2 * i) then 0
             else sumSettleTok (env.reviewResult i) 0 ps.length)
    ∧ (buildOkState now env ps i st).totalCostUsd
        = st.totalCostUsd + costOf (env.buildResult i)
          + (if env.abortedAt (2 + 2 * i) then 0
             else sumSettleCost (env.reviewResult i) 0 ps.length)) := by
  set st1 := updateP now (fun p => { p with
    iteration := i,
    status := if i == 0 then .building else .iterating }) st with hst1
  set bt : PhaseType := if i == 0 then .build else .iterate with hbt
  set bIdx := st1.pipeline.phases.length with hbIdx
  have h1p : st1.pipeline.phases = st.pipeline.phases := rfl
  have h1n : st1.nextId = st.nextId := rfl
  have h1s : scalars st1.pipeline = scalars { st.pipeline with status := if i == 0 then .building else .iterating, iteration := i } := rfl
  have h1t : st1.totalTokens = st.totalTokens := rfl
  have h1c : st1.totalCostUsd = st.totalCostUsd := rfl
  obtain ⟨o1, o2, o3, o4, o5⟩ := openPhase_spec now bt bIdx st1
  rw [h1p, h1n] at o1
  obtain ⟨m1, m2, m3, m4, m5⟩ := managerStart_spec now bIdx o1
  rw [o3, h1n] at m1 m3
  simp only [createPhase, List.nil_append] at m1
  obtain ⟨b1, b2, b3, b4, b5⟩ :=
    buildComplete_spec now bIdx (openPhase now bt bIdx st1).nextId (env.buildResult i) m1
      (List.nil_append
        [createAgentRun now (st.nextId + 1) "manager" "Project Manager" "👨‍💻"]).symm
  obtain ⟨f1, f2, f3, f4, f5⟩ := finishPhase_spec now bIdx bt b1
  set st5 := finishPhase now bIdx bt
    (buildComplete now bIdx (openPhase now bt bIdx st1).nextId (env.buildResult i)
      (managerStart now bIdx (openPhase now bt bIdx st1))) with hst5
  set st6 := updateP now (fun p => { p with status := .reviewing }) st5 with hst6
  have h6p : st6.pipeline.phases = st5.pipeline.phases := rfl
  have h6n : st6.nextId = st5.nextId := rfl
  have h6t : st6.totalTokens = st5.totalTokens := rfl
  have h6c : st6.totalCostUsd = st5.totalCostUsd := rfl
  have h6ph : st6.pipeline.phases = st.pipeline.phases ++
      [phaseDone now st.nextId bt
        [completeRun now (env.buildResult i)
          (createAgentRun now (st.nextId + 1) "manager" "Project Manager" "👨‍💻")]] := by
    rw [h6p, hst5, f1]
    simp [phaseDone]
  have h6nv : st6.nextId = st.nextId + 2 := by
    rw [h6n, hst5, f3, b3, m3]
  obtain ⟨q1, q2, q3, q4, q5⟩ := openPhase_spec now .review st6.pipeline.phases.length st6
  obtain ⟨r1, r2, r3, r4, r5⟩ :=
    runPhaseBody_spec now st6.pipeline.phases.length "Review failed" (env.reviewResult i)
      (env.abortedAt (2 + 2 * i)) ps q1 rfl
  obtain ⟨g1, g2, g3, g4, g5⟩ := finishPhase_spec now st6.pipeline.phases.length .review r1
  have hfold : buildOkState now env ps i st
      = finishPhase now st6.pipeline.phases.length .review
          (runPhaseBody now st6.pipeline.phases.length "Review failed" (env.reviewResult i)
            (env.abortedAt (2 + 2 * i)) ps (openPhase now .review st6.pipeline.phases.length st6)) := rfl
  have h6s : scalars st6.pipeline = scalars { st.pipeline with status := .reviewing, iteration := i } := by
    rw [hst6]
    have h5s : scalars st5.pipeline = scalars st1.pipeline := by
      rw [hst5, f2, b2, m2, o2]
    simp only [updateP_scalars]
    simp only [scalars, Prod.mk.injEq] at h5s h1s ⊢
    simp_all
  refine ⟨?_, ?_, ?_, ?_, ?_⟩
  · rw [hfold, g1, q3, h6nv, h6ph]
    simp [createPhase, phaseDone, List.append_assoc, add_assoc]
  · rw [hfold, g2, r2, q2, h6s]
  · rw [hfold, g3, r3, q3, h6nv]
  · rw [hfold, g4, r4, q4, h6t, hst5, f4, b4, m4, o4, h1t]
  · rw [hfold, g5, r5, q5, h6c, hst5, f5, b5, m5, o5, h1c]

/-! ## trimLog lemmas -/

theorem findSubAux_ge (pat : List Char) :
    ∀ (l : List Char) (i j : Nat), findSubAux pat l i = some j → i ≤ j
  | [], i, j, h => by
    by_cases hp : pat.isEmpty = true
    · simp [findSubAux, hp] at h; omega
    · simp [findSubAux, hp] at h
  | c :: rest, i, j, h => by
    by_cases hp : pat.isPrefixOf (c :: rest) = true
    · simp [findSubAux, hp] at h; omega
    · simp only [findSubAux, hp, if_false, Bool.false_eq_true] at h
      have := findSubAux_ge pat rest (i + 1) j h
      omega

theorem findSubAux_isPrefixOf (pat : List Char) :
    ∀ (l : List Char) (i j : Nat), findSubAux pat l i = some j →
      pat.isPrefixOf (l.drop (j - i)) = true
  | [], i, j, h => by
    by_cases hp : pat.isEmpty = true
    · simp only [findSubAux, hp, if_true, Option.some.injEq] at h
      subst h
      simp only [Nat.sub_self, List.drop_nil]
      cases pat with
      | nil => rfl
      | cons a as => simp [List.isEmpty] at hp
    · simp [findSubAux, hp] at h
  | c :: rest, i, j, h => by
    by_cases hp : pat.isPrefixOf (c :: rest) = true
    · simp only [findSubAux, hp, if_true, Option.some.injEq] at h
      subst h
      simpa using hp
    · simp only [findSubAux, hp, if_false, Bool.false_eq_true] at h
      have hge := findSubAux_ge pat rest (i + 1) j h
      have := findSubAux_isPrefixOf pat rest (i + 1) j h
      have hd : (c :: rest).drop (j - i) = rest.drop (j - (i + 1)) := by
        have : j - i = (j - (i + 1)) + 1 := by omega
        rw [this]
        rfl
      rw [hd]
      exact this

theorem indexOfFrom_ge (pat l : List Char) (start j : Nat)
    (h : indexOfFrom pat l start = some j) : start ≤ j :=
  findSubAux_ge pat (l.drop start) start j h

theorem indexOfFrom_isPrefixOf (pat l : List Char) (start j : Nat)
    (h : indexOfFrom pat l start = some j) : pat.isPrefixOf (l.drop j) = true := by
  have h1 := findSubAux_isPrefixOf pat (l.drop start) start j h
  have h2 := findSubAux_ge pat (l.drop start) start j h
  rw [List.drop_drop] at h1
  rwa [show start + (j - start) = j by omega] at h1

theorem findSubAux_replicate_a :
    ∀ (k i : Nat), findSubAux paraBreak (List.replicate k 'a') i = none
  | 0, _ => rfl
  | k + 1, i => by
    rw [List.replicate_succ]
    have hp : paraBreak.isPrefixOf ('a' :: List.replicate k 'a') = false := by
      simp [paraBreak, List.isPrefixOf]
    simp only [findSubAux, hp, Bool.false_eq_true, if_false]
    exact findSubAux_replicate_a k (i + 1)

theorem paraBreak_not_prefix_replicate_a (n : Nat) :
    paraBreak.isPrefixOf (List.replicate n 'a') = false := by
  cases n with
  | zero => rfl
  | succ m =>
    rw [List.replicate_succ]
    simp [paraBreak, List.isPrefixOf]

theorem trimLog_replicate_eq :
    trimLog MAX_LOG_LENGTH (List.replicate 4001 'a') = List.replicate 4000 'a' := by
  have hnone : indexOfFrom paraBreak (List.replicate 4001 'a') 1 = none := by
    unfold indexOfFrom
    rw [List.drop_replicate]
    exact findSubAux_replicate_a _ 1
  have hlen : (List.replicate 4001 'a').length = 4001 := List.length_replicate 4001 'a'
  unfold trimLog
  rw [if_pos (by rw [hlen]; norm_num [MAX_LOG_LENGTH])]
  rw [hlen]
  rw [show (4001 : Nat) - MAX_LOG_LENGTH = 1 from by norm_num [MAX_LOG_LENGTH]]
  simp only [hnone]
  rw [List.drop_replicate]

theorem runAgentStream_append_clean :
    ∀ (pre suf : List (Nat × HEvent)) (hangs : Bool) (last : Nat),
    cleanPrefix pre last = true →
    runAgentStream (pre ++ suf) hangs last = runAgentStream suf hangs (lastTimeOf pre last)
  | [], suf, hangs, last, _ => rfl
  | (t, e) :: rest, suf, hangs, last, h => by
    simp only [cleanPrefix, Bool.and_eq_true, Bool.not_eq_true'] at h
    obtain ⟨⟨hw, hc⟩, hclean⟩ := h
    have ih := runAgentStream_append_clean rest suf hangs t hclean
    simp only [List.cons_append, runAgentStream, hw, Bool.false_eq_true, if_false]
    cases e <;> simp_all [isCompleteEv, lastTimeOf]

theorem firstAbortTick_le (last : Nat) :
    firstAbortTick last ≤ last + ABORT_TIMEOUT_MS + (WATCHDOG_INTERVAL_MS - 1) := by
  unfold firstAbortTick ABORT_TIMEOUT_MS WATCHDOG_INTERVAL_MS
  calc 3000 * ((last + 120000 + 2999) / 3000)
      ≤ last + 120000 + 2999 := by
        rw [Nat.mul_comm]; exact Nat.div_mul_le_self _ 3000
    _ = last + 120000 + (3000 - 1) := by norm_num

theorem wdFire_of_gap (last t : Nat)
    (h : last + ABORT_TIMEOUT_MS + WATCHDOG_INTERVAL_MS ≤ t) : wdFire last t = true := by
  have hle := firstAbortTick_le last
  simp only [wdFire, decide_eq_true_eq]
  unfold ABORT_TIMEOUT_MS WATCHDOG_INTERVAL_MS at h hle
  omega

/-! ## Settled-phase filter lemmas -/

theorem keep_settleOne (now : Nat) (fb : String) (r : HeadlessResult)
    (rid : Nat) (pid pn pi : String) :
    ((settleOne now fb r (createAgentRun now rid pid pn pi)).status == AgentRunStatus.completed
      && strTruthy (settleOne now fb r (createAgentRun now rid pid pn pi)).output)
    = resultOk r := by
  by_cases hr : resultOk r = true
  · have hstr : strTruthy r.response = true := by
      have h2 : (r.success && strTruthy r.response) = true := hr
      exact (Bool.and_eq_true_iff.mp h2).2
    simp [settleOne, hr, completeRun, createAgentRun, hstr]
  · simp only [Bool.not_eq_true] at hr
    simp [settleOne, hr, failRunWith, createAgentRun]

theorem cwo_startedRuns_aborted (now : Nat) :
    ∀ (rid : Nat) (ps : List LabPersona),
    completedWithOutput (startedRuns now true rid ps) = []
  | _, [] => rfl
  | rid, p :: rest => by
    simp only [startedRuns, startedRun, if_true, completedWithOutput, List.filter_cons]
    have : ((failRunWith now "Pipeline cancelled"
        (createAgentRun now rid p.id p.name p.icon)).status == AgentRunStatus.completed
        && strTruthy (failRunWith now "Pipeline cancelled"
            (createAgentRun now rid p.id p.name p.icon)).output) = false := by
      simp [failRunWith, createAgentRun]
    rw [this]
    exact cwo_startedRuns_aborted now (rid + 1) rest

theorem cwo_settled_nil_iff (now : Nat) (fb : String) (R : Nat → HeadlessResult) :
    ∀ (ps : List LabPersona) (j rid : Nat),
    (completedWithOutput (settledList now fb R j (startedRuns now false rid ps)) = []
      ↔ anySuccessFrom R j ps.length = false)
  | [], _, _ => by simp [startedRuns, settledList, completedWithOutput, anySuccessFrom]
  | p :: rest, j, rid => by
    simp only [startedRuns, startedRun, Bool.false_eq_true, if_false, settledList,
      completedWithOutput, List.filter_cons, List.length_cons, anySuccessFrom]
    rw [keep_settleOne]
    by_cases hr : resultOk (R j) = true
    · simp [hr]
    · simp only [Bool.not_eq_true] at hr
      simp only [hr, Bool.false_eq_true, if_false, Bool.false_or]
      exact cwo_settled_nil_iff now fb R rest (j + 1) (rid + 1)

theorem cwo_settled_any_major (now : Nat) (fb : String) (R : Nat → HeadlessResult) :
    ∀ (ps : List LabPersona) (j rid : Nat),
    ((completedWithOutput (settledList now fb R j (startedRuns now false rid ps))).any
        (fun rr => outputHasMajor rr.output))
      = anyMajorFrom R j ps.length
  | [], _, _ => rfl
  | p :: rest, j, rid => by
    simp only [startedRuns, startedRun, Bool.false_eq_true, if_false, settledList,
      completedWithOutput, List.filter_cons, List.length_cons, anyMajorFrom]
    rw [keep_settleOne]
    by_cases hr : resultOk (R j) = true
    · simp only [hr, if_true, List.any_cons]
      have hout : (settleOne now fb (R j) (createAgentRun now rid p.id p.name p.icon)).output
          = (R j).response := by
        simp [settleOne, hr, completeRun]
      rw [hout]
      have := cwo_settled_any_major now fb R rest (j + 1) (rid + 1)
      simp only [completedWithOutput] at this
      rw [this]
      simp [okAndMajor, hr]
    · simp only [Bool.not_eq_true] at hr
      simp only [hr, Bool.false_eq_true, if_false]
      have := cwo_settled_any_major now fb R rest (j + 1) (rid + 1)
      simp only [completedWithOutput] at this
      rw [this]
      simp [okAndMajor, hr]

theorem anySuccessFrom_false_iff (R : Nat → HeadlessResult) :
    ∀ (n j : Nat),
    (anySuccessFrom R j n = false ↔ ∀ k, k < n → resultOk (R (j + k)) = false)
  | 0, j => by simp [anySuccessFrom]
  | n + 1, j => by
    simp only [anySuccessFrom, Bool.or_eq_false_iff]
    constructor
    · rintro ⟨h1, h2⟩ k hk
      cases k with
      | zero => simpa using h1
      | succ m =>
        have := (anySuccessFrom_false_iff R n (j + 1)).mp h2 m (by omega)
        rwa [show j + 1 + m = j + (m + 1) by omega] at this
    · intro hall
      refine ⟨by simpa using hall 0 (by omega), ?_⟩
      refine (anySuccessFrom_false_iff R n (j + 1)).mpr ?_
      intro k hk
      have := hall (k + 1) (by omega)
      rwa [show j + (k + 1) = j + 1 + k by omega] at this

theorem anyMajorFrom_true_of (R : Nat → HeadlessResult) :
    ∀ (n j k : Nat), k < n → okAndMajor (R (j + k)) = true →
    anyMajorFrom R j n = true
  | 0, _, k, hk, _ => by omega
  | n + 1, j, k, hk, hmaj => by
    simp only [anyMajorFrom, Bool.or_eq_true]
    cases k with
    | zero => left; simpa using hmaj
    | succ m =>
      right
      refine anyMajorFrom_true_of R n (j + 1) m (by omega) ?_
      rwa [show j + 1 + m = j + (m + 1) by omega]

theorem anyMajorFrom_false_iff (R : Nat → HeadlessResult) :
    ∀ (n j : Nat),
    (anyMajorFrom R j n = false ↔ ∀ k, k < n → okAndMajor (R (j + k)) = false)
  | 0, j => by simp [anyMajorFrom]
  | n + 1, j => by
    simp only [anyMajorFrom, Bool.or_eq_false_iff]
    constructor
    · rintro ⟨h1, h2⟩ k hk
      cases k with
      | zero => simpa using h1
      | succ m =>
        have := (anyMajorFrom_false_iff R n (j + 1)).mp h2 m (by omega)
        rwa [show j + 1 + m = j + (m + 1) by omega] at this
    · intro hall
      refine ⟨by simpa using hall 0 (by omega), ?_⟩
      refine (anyMajorFrom_false_iff R n (j + 1)).mpr ?_
      intro k hk
      have := hall (k + 1) (by omega)
      rwa [show j + (k + 1) = j + 1 + k by omega] at this

/-- C2: evaluation of the runner at the cancellation scenario of the claim.
Firing the abort signal while the THINK phase still has 3 of 5 runs in
flight does not produce what the claim says: every run is recorded in the
phase agent list (all 5), the THINK phase is marked completed, a build
phase IS appended (failed through the caught cancellation error), the final
status is failed rather than cancelled, and no pipeline_cancelled event is
emitted. -/
theorem C2_cancellation_evaluation :
    (runPipeline 0 envCancelMidThink personas5 freshPipeline).pipeline.status = .failed
    ∧ ((runPipeline 0 envCancelMidThink personas5 freshPipeline).pipeline.status
        = .cancelled) = False
    ∧ (runPipeline 0 envCancelMidThink personas5 freshPipeline).pipeline.phases.map
        (fun ph => (ph.type, ph.status, ph.agents.length))
        = [(.think, .completed, 5), (.build, .failed, 1)]
    ∧ (runPipeline 0 envCancelMidThink personas5 freshPipeline).events.any
        (fun e => match e with | .pipelineCancelled _ _ => true | _ => false) = false := by
  refine ⟨by decide, by simp [(by decide :
    (runPipeline 0 envCancelMidThink personas5 freshPipeline).pipeline.status = .failed)],
    by decide, by decide⟩

/-- C6 counterexample: a 4001-character log with no paragraph break exceeds
the cap, and its trimmed form does not start at a paragraph boundary — the
source falls back to cutting exactly the excess prefix at an arbitrary
character offset. -/
theorem C6_trim_counterexample :
    MAX_LOG_LENGTH < (List.replicate 4001 'a').length
    ∧ paraBreak.isPrefixOf (trimLog MAX_LOG_LENGTH (List.replicate 4001 'a')) = false := by
  constructor
  · rw [List.length_replicate]; norm_num [MAX_LOG_LENGTH]
  · rw [trimLog_replicate_eq]
    exact paraBreak_not_prefix_replicate_a 4000

set_option maxRecDepth 4000 in
/-- C6 (amended): for every log exceeding the 4000-character cap, the trim
yields a log of length at most the cap; when the log contains a paragraph
break at or after the excess offset the trimmed log starts at that
paragraph boundary, and otherwise the source cuts exactly the excess prefix
at an arbitrary character offset. -/
theorem C6_trimLog_spec (log : List Char) (h : MAX_LOG_LENGTH < log.length) :
    (trimLog MAX_LOG_LENGTH log).length ≤ MAX_LOG_LENGTH
    ∧ (indexOfFrom paraBreak log (log.length - MAX_LOG_LENGTH) ≠ none →
        paraBreak.isPrefixOf (trimLog MAX_LOG_LENGTH log) = true)
    ∧ (indexOfFrom paraBreak log (log.length - MAX_LOG_LENGTH) = none →
        trimLog MAX_LOG_LENGTH log = log.drop (log.length - MAX_LOG_LENGTH)) := by
  cases hfind : indexOfFrom paraBreak log (log.length - MAX_LOG_LENGTH) with
  | none =>
    have htrim : trimLog MAX_LOG_LENGTH log = log.drop (log.length - MAX_LOG_LENGTH) := by
      unfold trimLog
      rw [if_pos h]
      simp only [hfind]
    refine ⟨?_, fun hne => (hne rfl).elim, fun _ => htrim⟩
    rw [htrim, List.length_drop]
    omega
  | some cut =>
    have hge : log.length - MAX_LOG_LENGTH ≤ cut := indexOfFrom_ge _ _ _ _ hfind
    have htrim : trimLog MAX_LOG_LENGTH log = log.drop cut := by
      unfold trimLog
      rw [if_pos h]
      simp only [hfind]
    refine ⟨?_, fun _ => ?_, fun heq => Option.noConfusion heq⟩
    · rw [htrim, List.length_drop]
      omega
    · rw [htrim]
      exact indexOfFrom_isPrefixOf _ _ _ _ hfind

/-- C6 witness: the amended statement evaluated at the 4001-character log. -/
theorem C6_trimLog_spec_witness :
    MAX_LOG_LENGTH < (List.replicate 4001 'a').length
    ∧ ((trimLog MAX_LOG_LENGTH (List.replicate 4001 'a')).length ≤ MAX_LOG_LENGTH
    ∧ (indexOfFrom paraBreak (List.replicate 4001 'a')
          ((List.replicate 4001 'a').length - MAX_LOG_LENGTH) ≠ none →
        paraBreak.isPrefixOf (trimLog MAX_LOG_LENGTH (List.replicate 4001 'a')) = true)
    ∧ (indexOfFrom paraBreak (List.replicate 4001 'a')
          ((List.replicate 4001 'a').length - MAX_LOG_LENGTH) = none →
        trimLog MAX_LOG_LENGTH (List.replicate 4001 'a')
          = (List.replicate 4001 'a').drop ((List.replicate 4001 'a').length - MAX_LOG_LENGTH))) :=
  ⟨by rw [List.length_replicate]; norm_num [MAX_LOG_LENGTH],
   C6_trimLog_spec (List.replicate 4001 'a')
     (by rw [List.length_replicate]; norm_num [MAX_LOG_LENGTH])⟩

/-- C7 counterexample: a stream that is silent for 121.5 seconds (an event
at 1s, the next at 122.5s) and then completes successfully.  No watchdog
tick lands inside the silence window (the first abort-eligible tick after
the event at 1s is at 123s), so runAgentWithStreaming returns the
successful result rather than a failure, contradicting the claim for every
stream silent more than 120 seconds. -/
theorem C7_silence_counterexample :
    122500 - 1000 > 120000
    ∧ runAgentStream
        [(1000, .status "x"), (122500, .complete (okRes "done"))] false 0
        = { result := okRes "done", abortInvoked := false } := by
  constructor
  · norm_num
  · rfl

/-- C7 (amended): a stream with no complete event and no watchdog-observed
silence fails with the no-completion message and no abort; a hanging stream
or one whose silence reaches the 120s timeout at a 3s watchdog tick
(guaranteed whenever a gap is at least 123s) fails with the
unresponsive-aborted message and the runner abort invoked; the two failure
results are distinct. -/
theorem C7_stream_spec (evs : List (Nat × HEvent)) (hangs : Bool) :
    (cleanPrefix evs 0 = true → hangs = true →
        runAgentStream evs hangs 0 = { result := streamFailure true, abortInvoked := true })
    ∧ (cleanPrefix evs 0 = true → hangs = false →
        runAgentStream evs hangs 0 = { result := streamFailure false, abortInvoked := false })
    ∧ (∀ pre t e rest, evs = pre ++ (t, e) :: rest → cleanPrefix pre 0 = true →
        lastTimeOf pre 0 + ABORT_TIMEOUT_MS + WATCHDOG_INTERVAL_MS ≤ t →
        runAgentStream evs hangs 0 = { result := streamFailure true, abortInvoked := true })
    ∧ (streamFailure true).success = false
    ∧ (streamFailure false).success = false
    ∧ (streamFailure true).error
        = some { code := "execution_error", message := "Agent was unresponsive and was aborted" }
    ∧ (streamFailure false).error
        = some { code := "execution_error", message := "No completion event received" } := by
  refine ⟨?_, ?_, ?_, rfl, rfl, rfl, rfl⟩
  · intro hclean hh
    subst hh
    have := runAgentStream_append_clean evs [] true 0 hclean
    rw [List.append_nil] at this
    rw [this]
    rfl
  · intro hclean hh
    subst hh
    have := runAgentStream_append_clean evs [] false 0 hclean
    rw [List.append_nil] at this
    rw [this]
    rfl
  · intro pre t e rest hsplit hclean hgap
    subst hsplit
    rw [runAgentStream_append_clean pre ((t, e) :: rest) hangs 0 hclean]
    have hfire := wdFire_of_gap (lastTimeOf pre 0) t hgap
    simp only [runAgentStream, hfire, if_true]

/-- C7 witness: the amended statement applied to concrete streams — a
hanging silent stream, a stream ending cleanly without completion, and a
stream with a 125-second gap. -/
theorem C7_stream_spec_witness :
    runAgentStream [(1000, .status "x")] true 0
      = { result := streamFailure true, abortInvoked := true }
    ∧ runAgentStream [(1000, .status "x")] false 0
      = { result := streamFailure false, abortInvoked := false }
    ∧ runAgentStream [(5000, .status "x"), (130000, .textDelta "y")] false 0
      = { result := streamFailure true, abortInvoked := true } :=
  ⟨(C7_stream_spec [(1000, .status "x")] true).1 (by decide) rfl,
   (C7_stream_spec [(1000, .status "x")] false).2.1 (by decide) rfl,
   (C7_stream_spec [(5000, .status "x"), (130000, .textDelta "y")] false).2.2.1
     [(5000, .status "x")] 130000 (.textDelta "y") [] rfl (by decide) (by decide)⟩

/-- C3: when the THINK phase settles with zero completed-with-output runs
(every think run failed, or the phase was aborted before its closures
started), the pipeline is marked failed, exactly one phase — the think
phase — was appended, the all-briefs-failed pipeline_error is emitted, and
that message is distinct from both build-failure messages. -/
theorem C3_all_briefs_failed (now : Nat) (env : AgentEnv) (ps : List LabPersona)
    (p0 : LabPipeline)
    (h : env.abortedAt 0 = true ∨ ∀ j, j < ps.length → resultOk (env.thinkResult j) = false) :
    (runPipeline now env ps p0).pipeline.status = .failed
    ∧ (runPipeline now env ps p0).pipeline.phases.length = p0.phases.length + 1
    ∧ ((runPipeline now env ps p0).pipeline.phases.getLast?).map LabPhase.type = some .think
    ∧ (.pipelineError p0.id "All persona briefs failed. Cannot proceed to build phase.")
        ∈ (runPipeline now env ps p0).events
    ∧ "Build phase failed: ".data.isPrefixOf
        "All persona briefs failed. Cannot proceed to build phase.".data = false
    ∧ "Build phase error: ".data.isPrefixOf
        "All persona briefs failed. Cannot proceed to build phase.".data = false := by
  set stB := updateP now (fun p => { p with status := PipelineStatus.thinking })
      (emitEv (.pipelineStarted p0.id) (initialState p0)) with hstB
  obtain ⟨t1, t2, t3, t4, t5⟩ := runThinkPhase_spec now env ps stB
  have hBn : stB.nextId = 0 := rfl
  have hBp : stB.pipeline.phases = p0.phases := rfl
  rw [hBn, hBp] at t1
  have hA : completedWithOutput
      (phaseAgents now "Unknown error" env.thinkResult (env.abortedAt 0) (0 + 1) ps) = [] := by
    cases hab : env.abortedAt 0 with
    | true =>
      simp only [phaseAgents, if_true]
      exact cwo_startedRuns_aborted now _ ps
    | false =>
      have hall : ∀ j, j < ps.length → resultOk (env.thinkResult j) = false := by
        rcases h with h1 | h2
        · rw [hab] at h1; cases h1
        · exact h2
      simp only [phaseAgents, Bool.false_eq_true, if_false]
      refine (cwo_settled_nil_iff now _ _ ps 0 _).mpr ?_
      refine (anySuccessFrom_false_iff _ ps.length 0).mpr ?_
      intro k hk
      simpa using hall k hk
  have hlast : lastAgents (runThinkPhase now env ps stB).pipeline
      = phaseAgents now "Unknown error" env.thinkResult (env.abortedAt 0) (0 + 1) ps :=
    lastAgents_concat t1
  have hcond : ((completedWithOutput
      (lastAgents (runThinkPhase now env ps stB).pipeline)).length == 0) = true := by
    rw [hlast, hA]; rfl
  have hres : runPipeline now env ps p0
      = emitEv (.pipelineError
          (updateP now (fun p => { p with status := PipelineStatus.failed })
            (runThinkPhase now env ps stB)).pipeline.id
          "All persona briefs failed. Cannot proceed to build phase.")
          (updateP now (fun p => { p with status := PipelineStatus.failed })
            (runThinkPhase now env ps stB)) := by
    simp only [runPipeline, ← hstB]
    rw [hcond]
    simp
  have hid : (runThinkPhase now env ps stB).pipeline.id = p0.id := by
    have h2 := t2
    simp only [scalars, Prod.mk.injEq] at h2
    exact h2.1.trans rfl
  refine ⟨?_, ?_, ?_, ?_, by decide, by decide⟩
  · rw [hres]; rfl
  · rw [hres]
    show (runThinkPhase now env ps stB).pipeline.phases.length = p0.phases.length + 1
    rw [t1]
    simp
  · rw [hres]
    show ((runThinkPhase now env ps stB).pipeline.phases.getLast?).map LabPhase.type
      = some PhaseType.think
    rw [t1, List.getLast?_concat]
    rfl
  · rw [hres]
    have hid2 : (updateP now (fun p => { p with status := PipelineStatus.failed })
        (runThinkPhase now env ps stB)).pipeline.id = p0.id := hid
    simp only [emitEv, hid2]
    exact List.mem_append_right _ (List.mem_singleton.mpr rfl)

/-- C3 witness: five personas whose think runs all fail. -/
theorem C3_all_briefs_failed_witness :
    (runPipeline 0 envAllThinkFail personas5 freshPipeline).pipeline.status = .failed
    ∧ (runPipeline 0 envAllThinkFail personas5 freshPipeline).pipeline.phases.length
        = freshPipeline.phases.length + 1
    ∧ ((runPipeline 0 envAllThinkFail personas5 freshPipeline).pipeline.phases.getLast?).map
        LabPhase.type = some .think
    ∧ (.pipelineError freshPipeline.id
        "All persona briefs failed. Cannot proceed to build phase.")
        ∈ (runPipeline 0 envAllThinkFail personas5 freshPipeline).events
    ∧ "Build phase failed: ".data.isPrefixOf
        "All persona briefs failed. Cannot proceed to build phase.".data = false
    ∧ "Build phase error: ".data.isPrefixOf
        "All persona briefs failed. Cannot proceed to build phase.".data = false :=
  C3_all_briefs_failed 0 envAllThinkFail personas5 freshPipeline (Or.inr (by decide))

theorem anySuccessFrom_true_of (R : Nat → HeadlessResult) :
    ∀ (n j k : Nat), k < n → resultOk (R (j + k)) = true →
    anySuccessFrom R j n = true
  | 0, _, k, hk, _ => by omega
  | n + 1, j, k, hk, hok => by
    simp only [anySuccessFrom, Bool.or_eq_true]
    cases k with
    | zero => left; simpa using hok
    | succ m =>
      right
      refine anySuccessFrom_true_of R n (j + 1) m (by omega) ?_
      rwa [show j + 1 + m = j + (m + 1) by omega]

/-- C4: at any iteration of the build/iterate loop, from any state and with
any remaining budget, a failing (non-aborted) build run ends the loop at
once: the pipeline status becomes failed, exactly one build-type phase is
appended and marked failed, its sole manager run is failed, and no review
phase is appended for that iteration. -/
theorem C4_build_failure_fatal (now : Nat) (env : AgentEnv) (ps : List LabPersona)
    (i fuel : Nat) (st : RunState)
    (hab : env.abortedAt (1 + 2 * i) = false)
    (hr : resultOk (env.buildResult i) = false) :
    buildLoop now env ps (fuel + 1) i st = buildFailState now env i st
    ∧ (buildFailState now env i st).pipeline.status = .failed
    ∧ (buildFailState now env i st).pipeline.phases = st.pipeline.phases ++
        [failedBuildPhase now st.nextId (if i == 0 then .build else .iterate)
          (errMsgOr (env.buildResult i) "Build failed") (st.nextId + 1)]
    ∧ (failedBuildPhase now st.nextId (if i == 0 then .build else .iterate)
        (errMsgOr (env.buildResult i) "Build failed") (st.nextId + 1)).status = .failed
    ∧ ((failedBuildPhase now st.nextId (if i == 0 then .build else .iterate)
        (errMsgOr (env.buildResult i) "Build failed") (st.nextId + 1)).agents.map
          LabAgentRun.status) = [.failed]
    ∧ (buildFailState now env i st).pipeline.totalTokens = some st.totalTokens := by
  obtain ⟨e1, e2, e3, e4, e5, e6⟩ := buildIteration_fail_spec now env ps i st hab hr
  refine ⟨?_, e2, e3, rfl, by simp [failedBuildPhase, failRunWith, createAgentRun], e4⟩
  simp only [buildLoop, e1]

/-- C4 witness: the statement applied at iteration 1 with one unit of
budget left, from the freshly initialised state. -/
theorem C4_build_failure_fatal_witness :
    buildLoop 0 envBuildFail personas5 (1 + 1) 1 (initialState freshPipeline)
      = buildFailState 0 envBuildFail 1 (initialState freshPipeline)
    ∧ (buildFailState 0 envBuildFail 1 (initialState freshPipeline)).pipeline.status = .failed
    ∧ (buildFailState 0 envBuildFail 1 (initialState freshPipeline)).pipeline.phases
        = (initialState freshPipeline).pipeline.phases ++
        [failedBuildPhase 0 (initialState freshPipeline).nextId
          (if 1 == 0 then .build else .iterate)
          (errMsgOr (envBuildFail.buildResult 1) "Build failed")
          ((initialState freshPipeline).nextId + 1)]
    ∧ (failedBuildPhase 0 (initialState freshPipeline).nextId
        (if 1 == 0 then .build else .iterate)
        (errMsgOr (envBuildFail.buildResult 1) "Build failed")
        ((initialState freshPipeline).nextId + 1)).status = .failed
    ∧ ((failedBuildPhase 0 (initialState freshPipeline).nextId
        (if 1 == 0 then .build else .iterate)
        (errMsgOr (envBuildFail.buildResult 1) "Build failed")
        ((initialState freshPipeline).nextId + 1)).agents.map LabAgentRun.status) = [.failed]
    ∧ (buildFailState 0 envBuildFail 1 (initialState freshPipeline)).pipeline.totalTokens
        = some (initialState freshPipeline).totalTokens :=
  C4_build_failure_fatal 0 envBuildFail personas5 1 1 (initialState freshPipeline)
    (by decide) (by decide)

theorem thinkState_spec (now : Nat) (env : AgentEnv) (ps : List LabPersona) (p0 : LabPipeline) :
    ((thinkState now env ps p0).pipeline.phases
        = p0.phases ++ [phaseDone now 0 .think
            (phaseAgents now "Unknown error" env.thinkResult (env.abortedAt 0) 1 ps)]
    ∧ scalars (thinkState now env ps p0).pipeline
        = scalars { p0 with status := .thinking }
    ∧ (thinkState now env ps p0).nextId = 1 + ps.length
    ∧ (thinkState now env ps p0).totalTokens
        = (if env.abortedAt 0 then 0 else sumSettleTok env.thinkResult 0 ps.length)
    ∧ (thinkState now env ps p0).totalCostUsd
        = (if env.abortedAt 0 then 0 else sumSettleCost env.thinkResult 0 ps.length)) := by
  unfold thinkState
  obtain ⟨t1, t2, t3, t4, t5⟩ := runThinkPhase_spec now env ps
    (updateP now (fun p => { p with status := .thinking })
      (emitEv (.pipelineStarted p0.id) (initialState p0)))
  refine ⟨t1, t2, t3, ?_, ?_⟩
  · rw [t4]; exact Nat.zero_add _
  · rw [t5]; exact Nat.zero_add _

/-- With at least one successful brief and no abort before the think
closures, runPipeline proceeds into the iteration loop from thinkState with
the full budget. -/
theorem runPipeline_eq_loop (now : Nat) (env : AgentEnv) (ps : List LabPersona)
    (p0 : LabPipeline) (hab : env.abortedAt 0 = false)
    (hsucc : anySuccessFrom env.thinkResult 0 ps.length = true) :
    runPipeline now env ps p0
      = buildLoop now env ps (p0.maxIterations + 1) 0 (thinkState now env ps p0) := by
  obtain ⟨t1, t2, t3, t4, t5⟩ := thinkState_spec now env ps p0
  have hlast : lastAgents (thinkState now env ps p0).pipeline
      = phaseAgents now "Unknown error" env.thinkResult (env.abortedAt 0) 1 ps :=
    lastAgents_concat t1
  have hcwo : completedWithOutput
      (phaseAgents now "Unknown error" env.thinkResult (env.abortedAt 0) 1 ps) ≠ [] := by
    rw [hab]
    simp only [phaseAgents, Bool.false_eq_true, if_false]
    intro hnil
    have := (cwo_settled_nil_iff now _ _ ps 0 _).mp hnil
    rw [hsucc] at this
    cases this
  have hcond : ((completedWithOutput
      (lastAgents (thinkState now env ps p0).pipeline)).length == 0) = false := by
    rw [hlast]
    cases hc : completedWithOutput
        (phaseAgents now "Unknown error" env.thinkResult (env.abortedAt 0) 1 ps) with
    | nil => exact absurd hc hcwo
    | cons a l => rfl
  have hmax : (thinkState now env ps p0).pipeline.maxIterations = p0.maxIterations := by
    have h2 := t2
    simp only [scalars, Prod.mk.injEq] at h2
    exact h2.2.2.2.2.2.1
  have := hcond
  simp only [thinkState] at hcond hmax
  rw [show runPipeline now env ps p0
      = (if ((completedWithOutput (lastAgents
            (runThinkPhase now env ps (updateP now (fun p => { p with status := .thinking })
              (emitEv (.pipelineStarted p0.id) (initialState p0)))).pipeline)).length == 0) = true
         then emitEv (.pipelineError
            (updateP now (fun p => { p with status := PipelineStatus.failed })
              (runThinkPhase now env ps (updateP now (fun p => { p with status := .thinking })
                (emitEv (.pipelineStarted p0.id) (initialState p0))))).pipeline.id
            "All persona briefs failed. Cannot proceed to build phase.")
            (updateP now (fun p => { p with status := PipelineStatus.failed })
              (runThinkPhase now env ps (updateP now (fun p => { p with status := .thinking })
                (emitEv (.pipelineStarted p0.id) (initialState p0)))))
         else buildLoop now env ps
            ((runThinkPhase now env ps (updateP now (fun p => { p with status := .thinking })
              (emitEv (.pipelineStarted p0.id) (initialState p0)))).pipeline.maxIterations + 1) 0
            (runThinkPhase now env ps (updateP now (fun p => { p with status := .thinking })
              (emitEv (.pipelineStarted p0.id) (initialState p0))))) from rfl]
  rw [hcond]
  simp only [Bool.false_eq_true, if_false]
  rw [hmax]
  rfl

theorem completeBlock_spec (now : Nat) (st : RunState) :
    (completeBlock now st).pipeline.status = .completed
    ∧ (completeBlock now st).pipeline.phases = st.pipeline.phases
    ∧ (completeBlock now st).pipeline.totalTokens = some st.totalTokens
    ∧ (completeBlock now st).pipeline.totalCostUsd = some st.totalCostUsd
    ∧ (completeBlock now st).pipeline.id = st.pipeline.id
    ∧ (completeBlock now st).pipeline.iteration = st.pipeline.iteration := by
  exact ⟨rfl, rfl, rfl, rfl, rfl, rfl⟩

/-- One loop trip that stops (no blocking review, or budget exhausted). -/
theorem buildLoop_finish (now : Nat) (env : AgentEnv) (ps : List LabPersona)
    (i M : Nat) (st : RunState)
    (hab : env.abortedAt (1 + 2 * i) = false)
    (hok : resultOk (env.buildResult i) = true)
    (hdec : ((completedWithOutput (lastAgents (buildOkState now env ps i st).pipeline)).any
          (fun rr => outputHasMajor rr.output)) = false
        ∨ (buildOkState now env ps i st).pipeline.maxIterations ≤ i) :
    buildLoop now env ps (M + 1) i st = completeBlock now (buildOkState now env ps i st) := by
  simp only [buildLoop]
  rw [buildIteration_eq_decision now env ps i st hab hok]
  rcases hdec with hd | hd
  · simp [hd]
  · by_cases hm : ((completedWithOutput (lastAgents (buildOkState now env ps i st).pipeline)).any
        (fun rr => outputHasMajor rr.output)) = false
    · simp [hm]
    · rw [if_neg (by simp_all), if_pos hd]

/-- One loop trip that retries (a blocking review with budget remaining). -/
theorem buildLoop_next (now : Nat) (env : AgentEnv) (ps : List LabPersona)
    (i M : Nat) (st : RunState)
    (hab : env.abortedAt (1 + 2 * i) = false)
    (hok : resultOk (env.buildResult i) = true)
    (hmaj : ((completedWithOutput (lastAgents (buildOkState now env ps i st).pipeline)).any
          (fun rr => outputHasMajor rr.output)) = true)
    (hlt : i < (buildOkState now env ps i st).pipeline.maxIterations) :
    buildLoop now env ps (M + 1) i st
      = buildLoop now env ps M (i + 1) (buildOkState now env ps i st) := by
  simp only [buildLoop]
  rw [buildIteration_eq_decision now env ps i st hab hok]
  rw [if_neg (by simp [hmaj]), if_neg (by omega)]

/-- The blocking-review test of an iteration, rewritten to the environment:
with the review checks not aborted, hasMajorIssues is exactly anyMajorFrom
over the review oracle of the iteration. -/
theorem hasMajor_of_buildOkState (now : Nat) (env : AgentEnv) (ps : List LabPersona)
    (i : Nat) (st : RunState) (hab2 : env.abortedAt (2 + 2 * i) = false) :
    ((completedWithOutput (lastAgents (buildOkState now env ps i st).pipeline)).any
        (fun rr => outputHasMajor rr.output))
      = anyMajorFrom (env.reviewResult i) 0 ps.length := by
  obtain ⟨b1, _, _, _, _⟩ := buildOkState_spec now env ps i st
  have hre : (buildOkState now env ps i st).pipeline.phases
      = (st.pipeline.phases ++ [phaseDone now st.nextId (if i == 0 then .build else .iterate)
          [completeRun now (env.buildResult i)
            (createAgentRun now (st.nextId + 1) "manager" "Project Manager" "👨‍💻")]])
        ++ [phaseDone now (st.nextId + 2) .review
          (phaseAgents now "Review failed" (env.reviewResult i)
            (env.abortedAt (2 + 2 * i)) (st.nextId + 3) ps)] := by
    rw [b1]
    simp
  have hlast := lastAgents_concat hre
  rw [hlast]
  show ((completedWithOutput (phaseAgents now "Review failed" (env.reviewResult i)
      (env.abortedAt (2 + 2 * i)) (st.nextId + 3) ps)).any
        (fun rr => outputHasMajor rr.output)) = _
  rw [hab2]
  simp only [phaseAgents, Bool.false_eq_true, if_false]
  exact cwo_settled_any_major now _ _ ps 0 _

/-- The budget test of an iteration, rewritten to the initial pipeline. -/
theorem maxIter_of_buildOkState (now : Nat) (env : AgentEnv) (ps : List LabPersona)
    (i : Nat) (st : RunState) :
    (buildOkState now env ps i st).pipeline.maxIterations = st.pipeline.maxIterations := by
  obtain ⟨_, b2, _, _, _⟩ := buildOkState_spec now env ps i st
  simp only [scalars, Prod.mk.injEq] at b2
  exact b2.2.2.2.2.2.1

/-- A signal that never fires observes aborted = false at every instant. -/
theorem abortedAt_none {env : AgentEnv} (h : env.abortAfter = none) (k : Nat) :
    env.abortedAt k = false := by
  simp [AgentEnv.abortedAt, h]

/-- C5: with no cancellation, at least one brief, a successful first build,
and a first review phase in which no completed review mentions MAJOR_ISSUES
(case-insensitively, via okAndMajor), the loop stops after iteration 0:
exactly one think, one build and one review phase are appended, all
completed, and the pipeline completes. -/
theorem C5_no_major_stops_after_first (now : Nat) (env : AgentEnv) (ps : List LabPersona)
    (p0 : LabPipeline)
    (hab0 : env.abortedAt 0 = false)
    (hts : ∃ j, j < ps.length ∧ resultOk (env.thinkResult j) = true)
    (hab1 : env.abortedAt 1 = false)
    (hb : resultOk (env.buildResult 0) = true)
    (hab2 : env.abortedAt 2 = false)
    (hrev : ∀ j, j < ps.length → okAndMajor (env.reviewResult 0 j) = false) :
    (runPipeline now env ps p0).pipeline.status = .completed
    ∧ (runPipeline now env ps p0).pipeline.phases.map phaseShape
        = p0.phases.map phaseShape
          ++ [(.think, .completed), (.build, .completed), (.review, .completed)] := by
  obtain ⟨j, hj, hjok⟩ := hts
  have hsucc : anySuccessFrom env.thinkResult 0 ps.length = true :=
    anySuccessFrom_true_of _ ps.length 0 j hj (by simpa using hjok)
  rw [runPipeline_eq_loop now env ps p0 hab0 hsucc]
  have hmav : ((completedWithOutput
      (lastAgents (buildOkState now env ps 0 (thinkState now env ps p0)).pipeline)).any
      (fun rr => outputHasMajor rr.output)) = false := by
    rw [hasMajor_of_buildOkState now env ps 0 (thinkState now env ps p0) hab2]
    refine (anyMajorFrom_false_iff _ ps.length 0).mpr ?_
    intro k hk
    simpa using hrev k hk
  rw [buildLoop_finish now env ps 0 p0.maxIterations (thinkState now env ps p0) hab1 hb
    (Or.inl hmav)]
  obtain ⟨c1, c2, c3, c4, c5, c6⟩ :=
    completeBlock_spec now (buildOkState now env ps 0 (thinkState now env ps p0))
  obtain ⟨b1, _, _, _, _⟩ := buildOkState_spec now env ps 0 (thinkState now env ps p0)
  obtain ⟨t1, _, _, _, _⟩ := thinkState_spec now env ps p0
  refine ⟨c1, ?_⟩
  rw [c2, b1, t1]
  simp [phaseShape, phaseDone]

/-- C5 witness: five personas, all runs succeed, no review mentions
MAJOR_ISSUES. -/
theorem C5_no_major_stops_after_first_witness :
    (runPipeline 0 envNoMajor personas5 freshPipeline).pipeline.status = .completed
    ∧ (runPipeline 0 envNoMajor personas5 freshPipeline).pipeline.phases.map phaseShape
        = freshPipeline.phases.map phaseShape
          ++ [(.think, .completed), (.build, .completed), (.review, .completed)] :=
  C5_no_major_stops_after_first 0 envNoMajor personas5 freshPipeline
    (by decide) ⟨0, by decide, by decide⟩ (by decide) (by decide) (by decide) (by decide)

/-- C1: with maxIterations = 2, no cancellation, at least one brief, every
build succeeding and every review phase containing at least one completed
review that mentions MAJOR_ISSUES, the loop runs iterations 0, 1 and 2 and
then stops on budget: one think phase, a build phase for iteration 0, then
iterate phases for iterations 1 and 2, each followed by a review phase, all
completed, and the pipeline completes rather than retrying further. -/
theorem C1_budget_exhaustion (now : Nat) (env : AgentEnv) (ps : List LabPersona)
    (p0 : LabPipeline)
    (hmax : p0.maxIterations = 2)
    (habn : env.abortAfter = none)
    (hts : ∃ j, j < ps.length ∧ resultOk (env.thinkResult j) = true)
    (hb : ∀ i, i ≤ 2 → resultOk (env.buildResult i) = true)
    (hrev : ∀ i, i ≤ 2 → ∃ j, j < ps.length ∧ okAndMajor (env.reviewResult i j) = true) :
    (runPipeline now env ps p0).pipeline.status = .completed
    ∧ (runPipeline now env ps p0).pipeline.phases.map phaseShape
        = p0.phases.map phaseShape
          ++ [(.think, .completed), (.build, .completed), (.review, .completed),
              (.iterate, .completed), (.review, .completed),
              (.iterate, .completed), (.review, .completed)] := by
  obtain ⟨j, hj, hjok⟩ := hts
  have hsucc : anySuccessFrom env.thinkResult 0 ps.length = true :=
    anySuccessFrom_true_of _ ps.length 0 j hj (by simpa using hjok)
  have hmaxC : (thinkState now env ps p0).pipeline.maxIterations = 2 := by
    obtain ⟨_, t2, _, _, _⟩ := thinkState_spec now env ps p0
    simp only [scalars, Prod.mk.injEq] at t2
    exact t2.2.2.2.2.2.1.trans hmax
  have hmajor : ∀ (i : Nat) (st : RunState), i ≤ 2 →
      ((completedWithOutput (lastAgents (buildOkState now env ps i st).pipeline)).any
        (fun rr => outputHasMajor rr.output)) = true := by
    intro i st hi
    rw [hasMajor_of_buildOkState now env ps i st (abortedAt_none habn _)]
    obtain ⟨k, hk, hmaj⟩ := hrev i hi
    exact anyMajorFrom_true_of _ ps.length 0 k hk (by simpa using hmaj)
  rw [runPipeline_eq_loop now env ps p0 (abortedAt_none habn 0) hsucc, hmax]
  rw [buildLoop_next now env ps 0 2 (thinkState now env ps p0)
    (abortedAt_none habn _) (hb 0 (by omega)) (hmajor 0 _ (by omega))
    (by rw [maxIter_of_buildOkState, hmaxC]; omega)]
  rw [buildLoop_next now env ps 1 1 (buildOkState now env ps 0 (thinkState now env ps p0))
    (abortedAt_none habn _) (hb 1 (by omega)) (hmajor 1 _ (by omega))
    (by rw [maxIter_of_buildOkState, maxIter_of_buildOkState, hmaxC]; omega)]
  rw [buildLoop_finish now env ps 2 0
    (buildOkState now env ps 1 (buildOkState now env ps 0 (thinkState now env ps p0)))
    (abortedAt_none habn _) (hb 2 (by omega))
    (Or.inr (by
      rw [maxIter_of_buildOkState, maxIter_of_buildOkState, maxIter_of_buildOkState, hmaxC]))]
  obtain ⟨c1, c2, _, _, _, _⟩ := completeBlock_spec now
    (buildOkState now env ps 2
      (buildOkState now env ps 1 (buildOkState now env ps 0 (thinkState now env ps p0))))
  obtain ⟨b21, _, _, _, _⟩ := buildOkState_spec now env ps 2
    (buildOkState now env ps 1 (buildOkState now env ps 0 (thinkState now env ps p0)))
  obtain ⟨b11, _, _, _, _⟩ := buildOkState_spec now env ps 1
    (buildOkState now env ps 0 (thinkState now env ps p0))
  obtain ⟨b01, _, _, _, _⟩ := buildOkState_spec now env ps 0 (thinkState now env ps p0)
  obtain ⟨t1, _, _, _, _⟩ := thinkState_spec now env ps p0
  refine ⟨c1, ?_⟩
  rw [c2, b21, b11, b01, t1]
  simp [phaseShape, phaseDone]

/-- C1 witness: five personas, maxIterations 2, every review finding
major_issues (lower-case, matched case-insensitively). -/
theorem C1_budget_exhaustion_witness :
    (runPipeline 0 envAllMajor personas5 freshPipeline).pipeline.status = .completed
    ∧ (runPipeline 0 envAllMajor personas5 freshPipeline).pipeline.phases.map phaseShape
        = freshPipeline.phases.map phaseShape
          ++ [(.think, .completed), (.build, .completed), (.review, .completed),
              (.iterate, .completed), (.review, .completed),
              (.iterate, .completed), (.review, .completed)] :=
  C1_budget_exhaustion 0 envAllMajor personas5 freshPipeline rfl rfl
    ⟨0, by decide, by decide⟩ (fun i _ => rfl)
    (fun i _ => ⟨0, by decide, rfl⟩)

/-- C9: saving a pipeline and loading it back through the same workspace
root, project id and pipeline id yields exactly the in-memory record at the
time of the save (savePipeline itself stamps updatedAt on it before
writing); it differs from the pre-save record only at updatedAt. -/
theorem C9_save_load_roundtrip (fs : FileStore) (root : String) (p : LabPipeline) (now : Nat) :
    loadPipeline (savePipeline now fs root p).1 root p.projectId p.id
      = some (savePipeline now fs root p).2
    ∧ (savePipeline now fs root p).2 = { p with updatedAt := now }
    ∧ { (savePipeline now fs root p).2 with updatedAt := p.updatedAt } = p := by
  refine ⟨?_, rfl, rfl⟩
  simp [loadPipeline, savePipeline, fsWrite]

/-- C8 counterexample: totals are not persisted incrementally.  In a
straight-through run (five personas, every run reporting usage), the
persisted snapshot taken after the review phase completed — when eleven
runs had completed with usage — still carries totalTokens = none and
totalCostUsd = none while the pipeline is still in a non-terminal
reviewing state; across the whole persisted trace, totals appear only on
the terminal completed snapshot, which does carry the full aggregate. -/
theorem C8_incremental_counterexample :
    (((runPipeline 0 envNoMajor personas5 freshPipeline).saves.get? 29).any
        (fun s => s.status == .reviewing && s.totalTokens == none
          && s.totalCostUsd == none
          && s.phases.any (fun ph => ph.agents.any
              (fun r => r.status == .completed && r.tokenUsage.isSome)))) = true
    ∧ ((runPipeline 0 envNoMajor personas5 freshPipeline).saves.all
        (fun s => (s.totalTokens == none) || (s.status == .completed))) = true
    ∧ (runPipeline 0 envNoMajor personas5 freshPipeline).pipeline.totalTokens = some 165
    ∧ (runPipeline 0 envNoMajor personas5 freshPipeline).pipeline.totalCostUsd = some 33 := by
  refine ⟨?_, ?_, ?_, ?_⟩ <;> decide

/-- C8: every completed run that reports usage contributes additively to the
in-memory running totals, and those aggregates reach the persisted record at
the terminal transition: a straight-through run (a successful brief, a
successful build, no blocking review) completes with persisted totals equal
to the sum of the usage of the settled think runs, the build run and the
settled review runs. -/
theorem C8_totals_flushed_at_completion (now : Nat) (env : AgentEnv)
    (ps : List LabPersona) (p0 : LabPipeline)
    (hab0 : env.abortedAt 0 = false)
    (hts : ∃ j, j < ps.length ∧ resultOk (env.thinkResult j) = true)
    (hab1 : env.abortedAt 1 = false)
    (hb : resultOk (env.buildResult 0) = true)
    (hab2 : env.abortedAt 2 = false)
    (hrev : ∀ j, j < ps.length → okAndMajor (env.reviewResult 0 j) = false) :
    (runPipeline now env ps p0).pipeline.status = .completed
    ∧ (runPipeline now env ps p0).pipeline.totalTokens
        = some (sumSettleTok env.thinkResult 0 ps.length
            + toksOf (env.buildResult 0)
            + sumSettleTok (env.reviewResult 0) 0 ps.length)
    ∧ (runPipeline now env ps p0).pipeline.totalCostUsd
        = some (sumSettleCost env.thinkResult 0 ps.length
            + costOf (env.buildResult 0)
            + sumSettleCost (env.reviewResult 0) 0 ps.length) := by
  obtain ⟨j, hj, hjok⟩ := hts
  have hsucc : anySuccessFrom env.thinkResult 0 ps.length = true :=
    anySuccessFrom_true_of _ ps.length 0 j hj (by simpa using hjok)
  rw [runPipeline_eq_loop now env ps p0 hab0 hsucc]
  have hmav : ((completedWithOutput
      (lastAgents (buildOkState now env ps 0 (thinkState now env ps p0)).pipeline)).any
      (fun rr => outputHasMajor rr.output)) = false := by
    rw [hasMajor_of_buildOkState now env ps 0 (thinkState now env ps p0) hab2]
    refine (anyMajorFrom_false_iff _ ps.length 0).mpr ?_
    intro k hk
    simpa using hrev k hk
  rw [buildLoop_finish now env ps 0 p0.maxIterations (thinkState now env ps p0) hab1 hb
    (Or.inl hmav)]
  obtain ⟨c1, _, c3, c4, _, _⟩ :=
    completeBlock_spec now (buildOkState now env ps 0 (thinkState now env ps p0))
  obtain ⟨_, _, _, b4, b5⟩ := buildOkState_spec now env ps 0 (thinkState now env ps p0)
  obtain ⟨_, _, _, t4, t5⟩ := thinkState_spec now env ps p0
  refine ⟨c1, ?_, ?_⟩
  · rw [c3, b4, t4]
    simp [hab0, hab2]
  · rw [c4, b5, t5]
    simp [hab0, hab2]

/-- C8 witness: five personas, every run reporting 15 tokens and cost 3; the
completed pipeline persists totalTokens 165 (5 briefs + 1 build + 5 reviews,
15 each) and totalCostUsd 33. -/
theorem C8_totals_flushed_at_completion_witness :
    (runPipeline 0 envNoMajor personas5 freshPipeline).pipeline.status = .completed
    ∧ (runPipeline 0 envNoMajor personas5 freshPipeline).pipeline.totalTokens = some 165
    ∧ (runPipeline 0 envNoMajor personas5 freshPipeline).pipeline.totalCostUsd = some 33 := by
  obtain ⟨h1, h2, h3⟩ := C8_totals_flushed_at_completion 0 envNoMajor personas5 freshPipeline
    rfl ⟨0, by decide, by decide⟩ rfl rfl rfl (fun j _ => rfl)
  exact ⟨h1, by rw [h2]; rfl, by rw [h3]; rfl⟩

theorem sLe_refl (a : PhaseStatus) : sLe a a := Or.inl rfl

theorem sLe_trans {a b c : PhaseStatus} (h1 : sLe a b) (h2 : sLe b c) : sLe a c := by
  rcases h1 with rfl | ⟨rfl, hb⟩
  · exact h2
  · rcases h2 with rfl | ⟨hbr, _⟩
    · exact Or.inr ⟨rfl, hb⟩
    · rcases hb with hb | hb <;> subst hb <;> cases hbr

theorem phaseLe_of_phases_eq {p q : LabPipeline} (h : p.phases = q.phases) : PhaseLe p q := by
  refine ⟨Nat.le_of_eq (by rw [h]), ?_⟩
  intro i a b ha hb
  rw [h] at ha
  cases Option.some.inj (ha.symm.trans hb)
  exact sLe_refl _

theorem phaseLe_trans {p q r : LabPipeline} (h1 : PhaseLe p q) (h2 : PhaseLe q r) :
    PhaseLe p r := by
  refine ⟨h1.1.trans h2.1, ?_⟩
  intro i a c ha hc
  have hi : i < q.phases.length :=
    lt_of_lt_of_le (List.get?_eq_some.mp ha).1 h1.1
  obtain ⟨b, hb⟩ : ∃ b, q.phases.get? i = some b := ⟨_, List.get?_eq_get hi⟩
  exact sLe_trans (h1.2 i a b ha hb) (h2.2 i b c hb hc)

theorem phaseLe_append {p q : LabPipeline} {l : List LabPhase}
    (h : q.phases = p.phases ++ l) : PhaseLe p q := by
  refine ⟨by rw [h, List.length_append]; omega, ?_⟩
  intro i a b ha hb
  rw [h, List.get?_append (List.get?_eq_some.mp ha).1] at hb
  cases Option.some.inj (ha.symm.trans hb)
  exact sLe_refl _

theorem phaseLe_concat_mod {p q : LabPipeline} {init : List LabPhase} {ph ph2 : LabPhase}
    (hp : p.phases = init ++ [ph]) (hq : q.phases = init ++ [ph2])
    (hs : sLe ph.status ph2.status) : PhaseLe p q := by
  refine ⟨by rw [hp, hq]; simp, ?_⟩
  intro i a b ha hb
  by_cases hi : i < init.length
  · rw [hp, List.get?_append hi] at ha
    rw [hq, List.get?_append hi] at hb
    cases Option.some.inj (ha.symm.trans hb)
    exact sLe_refl _
  · have hlen : i < init.length + 1 := by
      have := (List.get?_eq_some.mp ha).1
      rw [hp, List.length_append, List.length_singleton] at this
      omega
    have hieq : i = init.length := by omega
    subst hieq
    rw [hp, List.get?_concat_length] at ha
    rw [hq, List.get?_concat_length] at hb
    cases Option.some.inj ha
    cases Option.some.inj hb
    exact hs

theorem okPhases_of_phases_eq {p q : LabPipeline} (h : p.phases = q.phases)
    (hp : okPhases p) : okPhases q := by
  intro ph hm
  exact hp ph (by rw [h]; exact hm)

theorem okPhases_append_one {p q : LabPipeline} {ph2 : LabPhase}
    (h : q.phases = p.phases ++ [ph2]) (hp : okPhases p) (h2 : okSt ph2.status) :
    okPhases q := by
  intro ph hm
  rw [h] at hm
  rcases List.mem_append.mp hm with hm | hm
  · exact hp ph hm
  · cases List.mem_singleton.mp hm
    exact h2

theorem okPhases_concat_mod {p q : LabPipeline} {init : List LabPhase} {ph ph2 : LabPhase}
    (hp : p.phases = init ++ [ph]) (hq : q.phases = init ++ [ph2])
    (hok : okPhases p) (h2 : okSt ph2.status) : okPhases q := by
  intro x hm
  rw [hq] at hm
  rcases List.mem_append.mp hm with hm | hm
  · exact hok x (by rw [hp]; exact List.mem_append.mpr (Or.inl hm))
  · cases List.mem_singleton.mp hm
    exact h2

theorem lastRunning_of_phases_eq {p q : LabPipeline} (h : p.phases = q.phases) :
    lastRunning p → lastRunning q := by
  rintro ⟨init, ph, hp, hr⟩
  exact ⟨init, ph, by rw [← h, hp], hr⟩

theorem modifyLastPhaseP_keep (f : LabPhase → LabPhase)
    (hf : ∀ ph, (f ph).status = ph.status) (p : LabPipeline) :
    PhaseLe p (modifyLastPhaseP f p)
    ∧ (okPhases p → okPhases (modifyLastPhaseP f p))
    ∧ (lastRunning p → lastRunning (modifyLastPhaseP f p)) := by
  rcases List.eq_nil_or_concat p.phases with h | ⟨init, ph, h⟩
  · have hq : (modifyLastPhaseP f p).phases = p.phases := by
      simp only [modifyLastPhaseP]
      rw [h]
      rfl
    refine ⟨phaseLe_of_phases_eq hq.symm, fun hp => okPhases_of_phases_eq hq.symm hp, ?_⟩
    rintro ⟨i2, p2, h2, _⟩
    rw [h] at h2
    simp at h2
  · rw [List.concat_eq_append] at h
    have hq : (modifyLastPhaseP f p).phases = init ++ [f ph] := by
      simp only [modifyLastPhaseP]
      rw [h, modifyLast_concat]
    have hss : sLe ph.status (f ph).status := by
      rw [hf ph]
      exact sLe_refl _
    have hmem : ph ∈ p.phases := by
      rw [h]
      exact List.mem_append.mpr (Or.inr (List.mem_singleton.mpr rfl))
    refine ⟨phaseLe_concat_mod h hq hss,
      fun hp => okPhases_concat_mod h hq hp (by rw [hf ph]; exact hp ph hmem), ?_⟩
    rintro ⟨i2, p2, h2, hr⟩
    have e1 : p.phases.getLast? = some ph := by
      rw [h]
      exact List.getLast?_concat _
    have e2 : p.phases.getLast? = some p2 := by
      rw [h2]
      exact List.getLast?_concat _
    cases Option.some.inj (e1.symm.trans e2)
    exact ⟨init, f ph, hq, (hf ph).trans hr⟩

theorem modifyLastPhaseP_close (f : LabPhase → LabPhase)
    (hf : ∀ ph, (f ph).status = .completed ∨ (f ph).status = .failed)
    {p : LabPipeline} (hr : lastRunning p) :
    PhaseLe p (modifyLastPhaseP f p)
    ∧ (okPhases p → okPhases (modifyLastPhaseP f p)) := by
  obtain ⟨init, ph, h, hrun⟩ := hr
  have hq : (modifyLastPhaseP f p).phases = init ++ [f ph] := by
    simp only [modifyLastPhaseP]
    rw [h, modifyLast_concat]
  have hok2 : okSt (f ph).status := by
    rcases hf ph with h2 | h2
    · rw [h2]
      exact Or.inr (Or.inl rfl)
    · rw [h2]
      exact Or.inr (Or.inr rfl)
  exact ⟨phaseLe_concat_mod h hq (Or.inr ⟨hrun, hf ph⟩),
    fun hp => okPhases_concat_mod h hq hp hok2⟩

theorem traceOk_emitEv {st : RunState} (e : PipelineEvent) (h : TraceOk st) :
    TraceOk (emitEv e st) := h

theorem traceOk_saveP {st : RunState} (now : Nat) (h : TraceOk st) : TraceOk (saveP now st) := by
  obtain ⟨h1, h2, h3, h4⟩ := h
  refine ⟨okPhases_of_phases_eq rfl h1, ?_, ?_, ?_⟩
  · intro s hm
    rcases List.mem_append.mp hm with hm | hm
    · exact h2 s hm
    · cases List.mem_singleton.mp hm
      exact okPhases_of_phases_eq rfl h1
  · show List.Chain' PhaseLe (st.saves ++ [{ st.pipeline with updatedAt := now }])
    rw [List.chain'_append]
    refine ⟨h3, List.chain'_singleton _, ?_⟩
    intro x hx y hy
    have hy2 : List.head? [{ st.pipeline with updatedAt := now }] = some y :=
      Option.mem_def.mp hy
    cases Option.some.inj hy2
    exact phaseLe_trans (h4 x (Option.mem_def.mp hx)) (phaseLe_of_phases_eq rfl)
  · intro s hs
    rw [show (saveP now st).saves = st.saves ++ [{ st.pipeline with updatedAt := now }] from rfl,
      List.getLast?_concat] at hs
    cases Option.some.inj hs
    exact phaseLe_of_phases_eq rfl

theorem traceOk_mutateP {st : RunState} (f : LabPipeline → LabPipeline) (h : TraceOk st)
    (h1 : PhaseLe st.pipeline (f st.pipeline)) (h2 : okPhases (f st.pipeline)) :
    TraceOk (mutateP f st) := by
  obtain ⟨_, hs, hc, hl⟩ := h
  exact ⟨h2, hs, hc, fun s hm => phaseLe_trans (hl s hm) h1⟩

theorem traceOk_updateP {st : RunState} (now : Nat) (f : LabPipeline → LabPipeline)
    (h : TraceOk st) (h1 : PhaseLe st.pipeline (f st.pipeline))
    (h2 : okPhases (f st.pipeline)) : TraceOk (updateP now f st) :=
  traceOk_saveP now (traceOk_mutateP f h h1 h2)

theorem traceOk_updateP_scalar {st : RunState} (now : Nat) {f : LabPipeline → LabPipeline}
    (hf : (f st.pipeline).phases = st.pipeline.phases) (h : TraceOk st) :
    TraceOk (updateP now f st) :=
  traceOk_updateP now f h (phaseLe_of_phases_eq hf.symm)
    (okPhases_of_phases_eq hf.symm h.1)

theorem traceOk_setTotals {st : RunState} (a b : Nat) (h : TraceOk st) :
    TraceOk { st with totalCostUsd := a, totalTokens := b } := h

theorem startStep_false_eq (now idx : Nat) (p : LabPersona) (st : RunState) :
    ∃ e, startStep now idx false p st
      = emitEv e (updateP now (pushAgentLast (createAgentRun now st.nextId p.id p.name p.icon))
          { st with nextId := st.nextId + 1 }) :=
  ⟨_, rfl⟩

theorem startStep_true_eq (now idx : Nat) (p : LabPersona) (st : RunState) :
    ∃ e1 e2, startStep now idx true p st
      = saveP now (emitEv e2 (mutateP (modifyLastAgentP (failRunWith now "Pipeline cancelled"))
          (emitEv e1 (updateP now
            (pushAgentLast (createAgentRun now st.nextId p.id p.name p.icon))
            { st with nextId := st.nextId + 1 })))) :=
  ⟨_, _, rfl⟩

theorem traceOk_startStep (now idx : Nat) (ab : Bool) (p : LabPersona) {st : RunState}
    (h : TraceOk st) (hr : lastRunning st.pipeline) :
    TraceOk (startStep now idx ab p st)
    ∧ lastRunning (startStep now idx ab p st).pipeline := by
  have h1 : TraceOk { st with nextId := st.nextId + 1 } := h
  obtain ⟨mle, mok, mlr⟩ := modifyLastPhaseP_keep
    (fun ph => { ph with
      agents := ph.agents ++ [createAgentRun now st.nextId p.id p.name p.icon] })
    (fun _ => rfl) st.pipeline
  have hT : TraceOk (updateP now
      (pushAgentLast (createAgentRun now st.nextId p.id p.name p.icon))
      { st with nextId := st.nextId + 1 }) :=
    traceOk_updateP now _ h1 mle (mok h.1)
  have hR : lastRunning (updateP now
      (pushAgentLast (createAgentRun now st.nextId p.id p.name p.icon))
      { st with nextId := st.nextId + 1 }).pipeline :=
    lastRunning_of_phases_eq rfl (mlr hr)
  cases ab
  · obtain ⟨e, he⟩ := startStep_false_eq now idx p st
    rw [he]
    exact ⟨traceOk_emitEv e hT, hR⟩
  · obtain ⟨e1, e2, he⟩ := startStep_true_eq now idx p st
    rw [he]
    obtain ⟨nle, nok, nlr⟩ := modifyLastPhaseP_keep
      (fun ph => { ph with
        agents := modifyLast (failRunWith now "Pipeline cancelled") ph.agents })
      (fun _ => rfl) (emitEv e1 (updateP now
        (pushAgentLast (createAgentRun now st.nextId p.id p.name p.icon))
        { st with nextId := st.nextId + 1 })).pipeline
    have hT2 : TraceOk (mutateP (modifyLastAgentP (failRunWith now "Pipeline cancelled"))
        (emitEv e1 (updateP now
          (pushAgentLast (createAgentRun now st.nextId p.id p.name p.icon))
          { st with nextId := st.nextId + 1 }))) :=
      traceOk_mutateP _ hT nle (nok hT.1)
    have hR2 : lastRunning (mutateP (modifyLastAgentP (failRunWith now "Pipeline cancelled"))
        (emitEv e1 (updateP now
          (pushAgentLast (createAgentRun now st.nextId p.id p.name p.icon))
          { st with nextId := st.nextId + 1 }))).pipeline :=
      lastRunning_of_phases_eq rfl (nlr hR)
    exact ⟨traceOk_saveP now (traceOk_emitEv e2 hT2), lastRunning_of_phases_eq rfl hR2⟩

theorem traceOk_startRuns (now idx : Nat) (ab : Bool) :
    ∀ (ps : List LabPersona) (st : RunState), TraceOk st → lastRunning st.pipeline →
      TraceOk (startRuns now idx ab ps st)
      ∧ lastRunning (startRuns now idx ab ps st).pipeline
  | [], _, h, hr => ⟨h, hr⟩
  | p :: rest, st, h, hr => by
    obtain ⟨h2, hr2⟩ := traceOk_startStep now idx ab p h hr
    exact traceOk_startRuns now idx ab rest _ h2 hr2

theorem traceOk_settleRun (now idx : Nat) (fb : String) (r : HeadlessResult) (j : Nat)
    {st : RunState} (h : TraceOk st) (hr : lastRunning st.pipeline) :
    TraceOk (settleRun now idx fb r j st)
    ∧ lastRunning (settleRun now idx fb r j st).pipeline := by
  obtain ⟨mleC, mokC, mlrC⟩ := modifyLastPhaseP_keep
    (fun ph => { ph with agents := modifyIdx (completeRun now r) j ph.agents })
    (fun _ => rfl) st.pipeline
  obtain ⟨mleF, mokF, mlrF⟩ := modifyLastPhaseP_keep
    (fun ph => { ph with agents := modifyIdx (failRunWith now (errMsgOr r fb)) j ph.agents })
    (fun _ => rfl) st.pipeline
  simp only [settleRun]
  split
  · exact ⟨h, hr⟩
  · split
    · exact ⟨traceOk_saveP now (traceOk_emitEv _
          (traceOk_setTotals _ _ (traceOk_mutateP _ h mleC (mokC h.1)))),
        lastRunning_of_phases_eq rfl (mlrC hr)⟩
    · exact ⟨traceOk_saveP now (traceOk_emitEv _ (traceOk_mutateP _ h mleF (mokF h.1))),
        lastRunning_of_phases_eq rfl (mlrF hr)⟩

theorem traceOk_settleRuns (now idx : Nat) (fb : String) (R : Nat → HeadlessResult) :
    ∀ (n j : Nat) (st : RunState), TraceOk st → lastRunning st.pipeline →
      TraceOk (settleRuns now idx fb R j n st)
      ∧ lastRunning (settleRuns now idx fb R j n st).pipeline
  | 0, _, _, h, hr => ⟨h, hr⟩
  | n + 1, j, st, h, hr => by
    obtain ⟨h2, hr2⟩ := traceOk_settleRun now idx fb (R j) j h hr
    exact traceOk_settleRuns now idx fb R n (j + 1) _ h2 hr2

theorem traceOk_runPhaseBody (now idx : Nat) (fb : String) (R : Nat → HeadlessResult)
    (ab : Bool) (ps : List LabPersona) {st : RunState} (h : TraceOk st)
    (hr : lastRunning st.pipeline) :
    TraceOk (runPhaseBody now idx fb R ab ps st)
    ∧ lastRunning (runPhaseBody now idx fb R ab ps st).pipeline := by
  obtain ⟨h2, hr2⟩ := traceOk_startRuns now idx ab ps st h hr
  simp only [runPhaseBody]
  split
  · exact ⟨h2, hr2⟩
  · exact traceOk_settleRuns now idx fb R ps.length 0 _ h2 hr2

theorem traceOk_openPhase (now : Nat) (t : PhaseType) (idx : Nat) {st : RunState}
    (h : TraceOk st) :
    TraceOk (openPhase now t idx st) ∧ lastRunning (openPhase now t idx st).pipeline := by
  have h1 : TraceOk { st with nextId := st.nextId + 1 } := h
  have hT : TraceOk (updateP now
      (fun p => { p with phases := p.phases ++ [createPhase now st.nextId t] })
      { st with nextId := st.nextId + 1 }) :=
    traceOk_updateP now _ h1 (phaseLe_append rfl)
      (okPhases_append_one rfl h.1 (Or.inl rfl))
  have hR : lastRunning (updateP now
      (fun p => { p with phases := p.phases ++ [createPhase now st.nextId t] })
      { st with nextId := st.nextId + 1 }).pipeline :=
    ⟨st.pipeline.phases, createPhase now st.nextId t, rfl, rfl⟩
  exact ⟨traceOk_emitEv _ hT, hR⟩

theorem traceOk_finishPhase (now idx : Nat) (t : PhaseType) {st : RunState}
    (h : TraceOk st) (hr : lastRunning st.pipeline) :
    TraceOk (finishPhase now idx t st) := by
  obtain ⟨cle, cok⟩ := modifyLastPhaseP_close
    (fun ph => { ph with status := .completed, completedAt := some now })
    (fun _ => Or.inl rfl) hr
  exact traceOk_emitEv _ (traceOk_updateP now _ h cle (cok h.1))

theorem traceOk_runThinkPhase (now : Nat) (env : AgentEnv) (ps : List LabPersona)
    {st : RunState} (h : TraceOk st) : TraceOk (runThinkPhase now env ps st) := by
  obtain ⟨h1, hr1⟩ := traceOk_openPhase now .think 0 h
  obtain ⟨h2, hr2⟩ := traceOk_runPhaseBody now 0 "Unknown error" env.thinkResult
    (env.abortedAt 0) ps h1 hr1
  exact traceOk_finishPhase now 0 .think h2 hr2

theorem managerStart_eq (now idx : Nat) (st : RunState) :
    ∃ e, managerStart now idx st
      = emitEv e (updateP now
          (pushAgentLast (createAgentRun now st.nextId "manager" "Project Manager" "👨‍💻"))
          { st with nextId := st.nextId + 1 }) :=
  ⟨_, rfl⟩

theorem traceOk_managerStart (now idx : Nat) {st : RunState} (h : TraceOk st)
    (hr : lastRunning st.pipeline) :
    TraceOk (managerStart now idx st) ∧ lastRunning (managerStart now idx st).pipeline := by
  obtain ⟨e, he⟩ := managerStart_eq now idx st
  rw [he]
  obtain ⟨mle, mok, mlr⟩ := modifyLastPhaseP_keep
    (fun ph => { ph with
      agents := ph.agents ++ [createAgentRun now st.nextId "manager" "Project Manager" "👨‍💻"] })
    (fun _ => rfl) st.pipeline
  have h1 : TraceOk { st with nextId := st.nextId + 1 } := h
  exact ⟨traceOk_emitEv e (traceOk_updateP now _ h1 mle (mok h.1)),
    lastRunning_of_phases_eq rfl (mlr hr)⟩

theorem buildComplete_eq (now idx rid : Nat) (r : HeadlessResult) (st : RunState) :
    ∃ e, buildComplete now idx rid r st
      = emitEv e
          { mutateP (modifyLastAgentP (completeRun now r)) st with
            totalCostUsd :=
              (mutateP (modifyLastAgentP (completeRun now r)) st).totalCostUsd + costOf r,
            totalTokens :=
              (mutateP (modifyLastAgentP (completeRun now r)) st).totalTokens + toksOf r } :=
  ⟨_, rfl⟩

theorem traceOk_buildComplete (now idx rid : Nat) (r : HeadlessResult) {st : RunState}
    (h : TraceOk st) (hr : lastRunning st.pipeline) :
    TraceOk (buildComplete now idx rid r st)
    ∧ lastRunning (buildComplete now idx rid r st).pipeline := by
  obtain ⟨e, he⟩ := buildComplete_eq now idx rid r st
  rw [he]
  obtain ⟨mle, mok, mlr⟩ := modifyLastPhaseP_keep
    (fun ph => { ph with agents := modifyLast (completeRun now r) ph.agents })
    (fun _ => rfl) st.pipeline
  have hT : TraceOk (mutateP (modifyLastAgentP (completeRun now r)) st) :=
    traceOk_mutateP _ h mle (mok h.1)
  exact ⟨traceOk_emitEv e (traceOk_setTotals _ _ hT),
    lastRunning_of_phases_eq rfl (mlr hr)⟩

theorem traceOk_buildTerminal (now : Nat) (pre msg : String) {st : RunState}
    (h : TraceOk st) (hr : lastRunning st.pipeline) :
    TraceOk (buildTerminal now pre msg st) := by
  obtain ⟨mle, mok, mlr⟩ := modifyLastPhaseP_keep
    (fun ph => { ph with agents := modifyLast (failRunWith now msg) ph.agents })
    (fun _ => rfl) st.pipeline
  have h1 : TraceOk (mutateP (modifyLastAgentP (failRunWith now msg)) st) :=
    traceOk_mutateP _ h mle (mok h.1)
  have hr1 : lastRunning (mutateP (modifyLastAgentP (failRunWith now msg)) st).pipeline :=
    lastRunning_of_phases_eq rfl (mlr hr)
  obtain ⟨cle, cok⟩ := modifyLastPhaseP_close
    (fun ph => { ph with status := .failed, completedAt := some now })
    (fun _ => Or.inr rfl) hr1
  have h2 : TraceOk (mutateP
      (modifyLastPhaseP (fun ph => { ph with status := .failed, completedAt := some now }))
      (mutateP (modifyLastAgentP (failRunWith now msg)) st)) :=
    traceOk_mutateP _ h1 cle (cok h1.1)
  exact traceOk_emitEv _ (traceOk_updateP_scalar now rfl h2)

theorem traceOk_completeBlock (now : Nat) {st : RunState} (h : TraceOk st) :
    TraceOk (completeBlock now st) :=
  traceOk_emitEv _ (traceOk_updateP_scalar now rfl h)

theorem buildIteration_abort_eq (now : Nat) (env : AgentEnv) (ps : List LabPersona)
    (i : Nat) (st : RunState) (hab : env.abortedAt (1 + 2 * i) = true) :
    buildIteration now env ps i st = .done (buildAbortState now i st) := by
  simp only [buildIteration, buildAbortState, hab, if_true]

theorem traceOk_buildPre (now : Nat) (bt : PhaseType) (bIdx mIdx : Nat) {st : RunState}
    (h : TraceOk st) :
    TraceOk (managerStart now mIdx (openPhase now bt bIdx st))
    ∧ lastRunning (managerStart now mIdx (openPhase now bt bIdx st)).pipeline := by
  obtain ⟨h2, hr2⟩ := traceOk_openPhase now bt bIdx h
  exact traceOk_managerStart now mIdx h2 hr2

theorem traceOk_buildAbortState (now i : Nat) {st : RunState} (h : TraceOk st) :
    TraceOk (buildAbortState now i st) := by
  have h1 : TraceOk (updateP now (fun p => { p with
      iteration := i,
      status := if i == 0 then PipelineStatus.building else .iterating }) st) :=
    traceOk_updateP_scalar now rfl h
  exact traceOk_buildTerminal now _ _ (traceOk_buildPre now _ _ _ h1).1
    (traceOk_buildPre now _ _ _ h1).2

theorem traceOk_buildFailState (now : Nat) (env : AgentEnv) (i : Nat) {st : RunState}
    (h : TraceOk st) : TraceOk (buildFailState now env i st) := by
  have h1 : TraceOk (updateP now (fun p => { p with
      iteration := i,
      status := if i == 0 then PipelineStatus.building else .iterating }) st) :=
    traceOk_updateP_scalar now rfl h
  exact traceOk_buildTerminal now _ _ (traceOk_buildPre now _ _ _ h1).1
    (traceOk_buildPre now _ _ _ h1).2

theorem traceOk_buildOkState (now : Nat) (env : AgentEnv) (ps : List LabPersona) (i : Nat)
    {st : RunState} (h : TraceOk st) : TraceOk (buildOkState now env ps i st) := by
  set st1 := updateP now (fun p => { p with
    iteration := i,
    status := if i == 0 then .building else .iterating }) st with hst1
  set bt : PhaseType := if i == 0 then .build else .iterate with hbt
  set bIdx := st1.pipeline.phases.length with hbIdx
  set st2 := openPhase now bt bIdx st1 with hst2
  set rid := st2.nextId with hrid
  set st3 := managerStart now bIdx st2 with hst3
  set st4 := buildComplete now bIdx rid (env.buildResult i) st3 with hst4
  set st5 := finishPhase now bIdx bt st4 with hst5
  set st6 := updateP now (fun p => { p with status := PipelineStatus.reviewing }) st5 with hst6
  set rIdx := st6.pipeline.phases.length with hrIdx
  set st7 := openPhase now .review rIdx st6 with hst7
  set st8 := runPhaseBody now rIdx "Review failed" (env.reviewResult i)
    (env.abortedAt (2 + 2 * i)) ps st7 with hst8
  have h1 : TraceOk st1 := traceOk_updateP_scalar now rfl h
  obtain ⟨h2, hr2⟩ := traceOk_openPhase now bt bIdx h1
  obtain ⟨h3, hr3⟩ := traceOk_managerStart now bIdx h2 hr2
  obtain ⟨h4, hr4⟩ := traceOk_buildComplete now bIdx rid (env.buildResult i) h3 hr3
  have h5 : TraceOk st5 := traceOk_finishPhase now bIdx bt h4 hr4
  have h6 : TraceOk st6 := traceOk_updateP_scalar now rfl h5
  obtain ⟨h7, hr7⟩ := traceOk_openPhase now .review rIdx h6
  obtain ⟨h8, hr8⟩ := traceOk_runPhaseBody now rIdx "Review failed" (env.reviewResult i)
    (env.abortedAt (2 + 2 * i)) ps h7 hr7
  exact traceOk_finishPhase now rIdx .review h8 hr8

theorem traceOk_buildIteration (now : Nat) (env : AgentEnv) (ps : List LabPersona) (i : Nat)
    {st : RunState} (h : TraceOk st) :
    TraceOk (LoopStep.stateOf (buildIteration now env ps i st)) := by
  cases hab : env.abortedAt (1 + 2 * i) with
  | true =>
    rw [buildIteration_abort_eq now env ps i st hab]
    exact traceOk_buildAbortState now i h
  | false =>
    cases hok : resultOk (env.buildResult i) with
    | false =>
      rw [(buildIteration_fail_spec now env ps i st hab hok).1]
      exact traceOk_buildFailState now env i h
    | true =>
      rw [buildIteration_eq_decision now env ps i st hab hok]
      have hOk := traceOk_buildOkState now env ps i h
      split
      · exact hOk
      · split
        · exact hOk
        · exact hOk

theorem traceOk_buildLoop (now : Nat) (env : AgentEnv) (ps : List LabPersona) :
    ∀ (fuel i : Nat) (st : RunState), TraceOk st →
      TraceOk (buildLoop now env ps fuel i st)
  | 0, _, _, h => h
  | fuel + 1, i, st, h => by
    have hIt := traceOk_buildIteration now env ps i h
    simp only [buildLoop]
    cases heq : buildIteration now env ps i st with
    | done st2 =>
      rw [heq] at hIt
      exact hIt
    | finish st2 =>
      rw [heq] at hIt
      exact traceOk_completeBlock now hIt
    | next st2 =>
      rw [heq] at hIt
      exact traceOk_buildLoop now env ps fuel (i + 1) st2 hIt

theorem traceOk_initialState (p0 : LabPipeline) (h0 : okPhases p0) :
    TraceOk (initialState p0) := by
  refine ⟨h0, ?_, List.chain'_nil, ?_⟩
  · intro s hm
    exact absurd hm (List.not_mem_nil s)
  · intro s hs
    exact Option.noConfusion hs

theorem traceOk_runPipeline (now : Nat) (env : AgentEnv) (ps : List LabPersona)
    (p0 : LabPipeline) (h0 : okPhases p0) :
    TraceOk (runPipeline now env ps p0) := by
  have hInit : TraceOk (emitEv (.pipelineStarted p0.id) (initialState p0)) :=
    traceOk_emitEv _ (traceOk_initialState p0 h0)
  have hThink : TraceOk (runThinkPhase now env ps
      (updateP now (fun p => { p with status := PipelineStatus.thinking })
        (emitEv (.pipelineStarted p0.id) (initialState p0)))) :=
    traceOk_runThinkPhase now env ps (traceOk_updateP_scalar now rfl hInit)
  simp only [runPipeline]
  split
  · exact traceOk_emitEv _ (traceOk_updateP_scalar now rfl hThink)
  · exact traceOk_buildLoop now env ps _ 0 _ hThink

/-- C10: every phase runPipeline appends is created running (createPhase),
and over the whole run — the final record and the entire persisted
trace — a phase status is always one of running, completed, failed (never
pending or skipped), and the trace is monotone under PhaseLe: phases are
only appended, and an existing phase status either stays or moves from
running to completed or failed. -/
theorem C10_phase_status_monotone (now : Nat) (env : AgentEnv) (ps : List LabPersona)
    (p0 : LabPipeline) (h0 : okPhases p0) :
    (∀ (n phid : Nat) (t : PhaseType), (createPhase n phid t).status = .running)
    ∧ okPhases (runPipeline now env ps p0).pipeline
    ∧ (∀ s ∈ (runPipeline now env ps p0).saves, okPhases s)
    ∧ List.Pairwise PhaseLe
        ((runPipeline now env ps p0).saves ++ [(runPipeline now env ps p0).pipeline]) := by
  obtain ⟨h1, h2, h3, h4⟩ := traceOk_runPipeline now env ps p0 h0
  refine ⟨fun n phid t => rfl, h1, h2, ?_⟩
  have hchain : List.Chain' PhaseLe
      ((runPipeline now env ps p0).saves ++ [(runPipeline now env ps p0).pipeline]) := by
    rw [List.chain'_append]
    refine ⟨h3, List.chain'_singleton _, ?_⟩
    intro x hx y hy
    have hy2 : List.head? [(runPipeline now env ps p0).pipeline] = some y :=
      Option.mem_def.mp hy
    cases Option.some.inj hy2
    exact h4 x (Option.mem_def.mp hx)
  exact (@List.chain'_iff_pairwise _ PhaseLe ⟨fun _ _ _ a b => phaseLe_trans a b⟩ _).mp hchain

/-- C10 witness: the statement applied to the straight-through five-persona
run on a fresh pipeline. -/
theorem C10_phase_status_monotone_witness :
    (∀ (n phid : Nat) (t : PhaseType), (createPhase n phid t).status = .running)
    ∧ okPhases (runPipeline 0 envNoMajor personas5 freshPipeline).pipeline
    ∧ (∀ s ∈ (runPipeline 0 envNoMajor personas5 freshPipeline).saves, okPhases s)
    ∧ List.Pairwise PhaseLe
        ((runPipeline 0 envNoMajor personas5 freshPipeline).saves
          ++ [(runPipeline 0 envNoMajor personas5 freshPipeline).pipeline]) :=
  C10_phase_status_monotone 0 envNoMajor personas5 freshPipeline (by decide)

end Craft
